import Mathlib

/-!
Verification of the typeorm schema-mutation engine and per-connection session layer
(MysqlQueryRunner, PostgresQueryRunner, SqliteQueryRunner, SqlServerQueryRunner)
against its natural-language specification.

The shallow embedding translates the runner methods into pure Lean functions over an
explicit Table model and an explicit statement AST (one AST constructor per SQL shape
the runners emit), with session state passed explicitly and fallible methods returning
Except values paired with the list of statements that reached the driver.
-/

namespace TypeormSpec

/-! ## Data model

Modelled from the spec: the Table / TableColumn / TableIndex / TableUnique /
TableForeignKey classes live in schema-builder/table which is not under src; their
shape is given by spec section 3 (DATA MODEL) and by how the runner code reads and
writes their fields.  Only the fields the verified methods touch are carried. -/

structure TableColumn where
  name : String
  type : String := ""
  length : String := ""
  isNullable : Bool := false
  isPrimary : Bool := false
  isUnique : Bool := false
  isGenerated : Bool := false
  generationStrategy : Option String := none
  generatedType : Option String := none
  isArray : Bool := false
  default : Option String := none
  deriving Repr, DecidableEq

structure TableIndex where
  name : String
  columnNames : List String
  isUnique : Bool := false
  isSpatial : Bool := false
  isFulltext : Bool := false
  deriving Repr, DecidableEq

structure TableUnique where
  name : String
  columnNames : List String
  deriving Repr, DecidableEq

structure TableForeignKey where
  name : String
  columnNames : List String
  referencedTableName : String
  referencedColumnNames : List String
  onDelete : Option String := none
  onUpdate : Option String := none
  deriving Repr, DecidableEq

structure Table where
  name : String
  columns : List TableColumn := []
  indices : List TableIndex := []
  uniques : List TableUnique := []
  foreignKeys : List TableForeignKey := []
  deriving Repr, DecidableEq

/-- Modelled from the spec: Table.primaryColumns getter (columns flagged isPrimary). -/
def Table.primaryColumns (t : Table) : List TableColumn :=
  t.columns.filter (·.isPrimary)

/-- Modelled from the spec: Table.findColumnByName (first column with the name). -/
def Table.findColumnByName (t : Table) (n : String) : Option TableColumn :=
  t.columns.find? (·.name == n)

/-- Modelled from the spec: Table.findColumnIndices — the indices whose column list
contains the given column's name. -/
def Table.findColumnIndices (t : Table) (c : TableColumn) : List TableIndex :=
  t.indices.filter (fun idx => idx.columnNames.contains c.name)

/-- Modelled from the spec: Table.findColumnForeignKeys — the foreign keys whose local
column list contains the given column's name. -/
def Table.findColumnForeignKeys (t : Table) (c : TableColumn) : List TableForeignKey :=
  t.foreignKeys.filter (fun fk => fk.columnNames.contains c.name)

/-- Modelled from the spec: Table.addColumn appends the column to the column list. -/
def Table.addColumn (t : Table) (c : TableColumn) : Table :=
  { t with columns := t.columns ++ [c] }

/-- Modelled from the spec: Table.removeColumn removes the (first) column with the
same name from the column list. -/
def Table.removeColumn (t : Table) (c : TableColumn) : Table :=
  { t with columns := t.columns.filter (fun x => x.name != c.name) }

/-! ## Naming strategy

Modelled from the spec: the naming-strategy collaborator is consumed as a pure
deterministic function of table name and column names (spec section 6); its concrete
implementation is not under src, so a concrete deterministic function stands in. -/

def indexName (tableName : String) (columnNames : List String) : String :=
  "IDX_" ++ tableName ++ "_" ++ String.intercalate "_" columnNames

def uniqueConstraintName (tableName : String) (columnNames : List String) : String :=
  "UQ_" ++ tableName ++ "_" ++ String.intercalate "_" columnNames

def foreignKeyName (tableName : String) (columnNames : List String)
    (referencedTableName : String) (referencedColumnNames : List String) : String :=
  "FK_" ++ tableName ++ "_" ++ String.intercalate "_" columnNames ++ "_" ++
    referencedTableName ++ "_" ++ String.intercalate "_" referencedColumnNames

/-! ## Error taxonomy (src/error classes, as thrown by the runners) -/

inductive OrmError where
  | queryRunnerAlreadyReleased
  | transactionAlreadyStarted
  | transactionNotStarted
  | queryFailed (sql : String)
  | connectionIsNotSet (dialect : String)
  | typeormError (message : String)
  | driverError (message : String)
  deriving Repr, DecidableEq

/-! ## ConnectionSession state -/

structure SessionState where
  isReleased : Bool := false
  hasConnection : Bool := false
  isTransactionActive : Bool := false
  deriving Repr, DecidableEq

/-! ## Claim C9: unique/check constraint entry points on MySQL

MysqlQueryRunner.createUniqueConstraint / dropUniqueConstraint (part_000 lines
991-1014) throw a TypeORMError unconditionally, before any statement is built or
executed.  The second component of each result is the list of SQL statements that
reached the database. -/

def mysqlCreateUniqueConstraint (tableOrName : String) (uniqueConstraint : TableUnique) :
    Except OrmError Unit × List String :=
  (.error (.typeormError "MySql does not support unique constraints. Use unique index instead."), [])

def mysqlDropUniqueConstraint (tableOrName : String) (uniqueOrName : String) :
    Except OrmError Unit × List String :=
  (.error (.typeormError "MySql does not support unique constraints. Use unique index instead."), [])

/-! ## Claim C3: query() after release()

Each dialect's query() checks the released flag before touching the driver.
`driverOutcome` abstracts the driver callback result (none = success); the second
component is the list of statements that reached the driver. -/

/-- MysqlQueryRunner.query (part_000 lines 175-223): released guard, then connect,
then issue; driver errors are wrapped as QueryFailedError. -/
def mysqlQuery (st : SessionState) (query : String) (driverOutcome : Option String) :
    Except OrmError Unit × List String :=
  if st.isReleased then
    (.error .queryRunnerAlreadyReleased, [])
  else
    match driverOutcome with
    | some _ => (.error (.queryFailed query), [query])
    | none => (.ok (), [query])

/-- SqliteQueryRunner.query (SqliteQueryRunner.ts lines 37-107): released guard first,
then the connection-set guard, then issue. -/
def sqliteQuery (st : SessionState) (isConnected : Bool) (query : String)
    (driverOutcome : Option String) : Except OrmError Unit × List String :=
  if st.isReleased then
    (.error .queryRunnerAlreadyReleased, [])
  else if !isConnected then
    (.error (.connectionIsNotSet "sqlite"), [])
  else
    match driverOutcome with
    | some _ => (.error (.queryFailed query), [query])
    | none => (.ok (), [query])

/-- PostgresQueryRunner.query (PostgresQueryRunner.ts lines 213-259): released guard,
then connect and issue; driver errors are wrapped as QueryFailedError. -/
def postgresQuery (st : SessionState) (query : String) (driverOutcome : Option String) :
    Except OrmError Unit × List String :=
  if st.isReleased then
    (.error .queryRunnerAlreadyReleased, [])
  else
    match driverOutcome with
    | some _ => (.error (.queryFailed query), [query])
    | none => (.ok (), [query])

/-! ## Claim C4: transaction state machine

Each function returns (outcome, state after the call, statements that reached the
driver).  The MySQL runner issues BEGIN/COMMIT/ROLLBACK through this.query, which
itself throws when the session is released; the SQL Server runner checks the released
flag explicitly first and drives the mssql transaction object. -/

/-- MysqlQueryRunner.startTransaction (part_000 lines 111-130).  Note the source sets
isTransactionActive before issuing the statements, so a released-session failure
leaves the flag set, exactly as the code does. -/
def mysqlStartTransaction (st : SessionState) (isolationLevel : Option String) :
    Except OrmError Unit × SessionState × List String :=
  if st.isTransactionActive then
    (.error .transactionAlreadyStarted, st, [])
  else
    let st1 := { st with isTransactionActive := true }
    if st1.isReleased then
      (.error .queryRunnerAlreadyReleased, st1, [])
    else
      match isolationLevel with
      | some lvl =>
          (.ok (), st1, ["SET TRANSACTION ISOLATION LEVEL " ++ lvl, "START TRANSACTION"])
      | none => (.ok (), st1, ["START TRANSACTION"])

/-- MysqlQueryRunner.commitTransaction (part_000 lines 136-150). -/
def mysqlCommitTransaction (st : SessionState) :
    Except OrmError Unit × SessionState × List String :=
  if !st.isTransactionActive then
    (.error .transactionNotStarted, st, [])
  else if st.isReleased then
    (.error .queryRunnerAlreadyReleased, st, [])
  else
    (.ok (), { st with isTransactionActive := false }, ["COMMIT"])

/-- MysqlQueryRunner.rollbackTransaction (part_000 lines 156-170). -/
def mysqlRollbackTransaction (st : SessionState) :
    Except OrmError Unit × SessionState × List String :=
  if !st.isTransactionActive then
    (.error .transactionNotStarted, st, [])
  else if st.isReleased then
    (.error .queryRunnerAlreadyReleased, st, [])
  else
    (.ok (), { st with isTransactionActive := false }, ["ROLLBACK"])

/-- SqlServerQueryRunner.startTransaction (SqlServerQueryRunner.ts lines 91-131):
released guard first, then the already-active guard; on a driver begin error the flag
is reset to idle before failing. -/
def sqlserverStartTransaction (st : SessionState) (isolationLevel : Option String)
    (beginOutcome : Option String) : Except OrmError Unit × SessionState × List String :=
  if st.isReleased then
    (.error .queryRunnerAlreadyReleased, st, [])
  else if st.isTransactionActive then
    (.error .transactionAlreadyStarted, st, [])
  else
    match beginOutcome with
    | some e => (.error (.driverError e), { st with isTransactionActive := false }, [])
    | none =>
        (.ok (), { st with isTransactionActive := true }, ["BEGIN TRANSACTION"])

/-- SqlServerQueryRunner.commitTransaction (SqlServerQueryRunner.ts lines 137-162). -/
def sqlserverCommitTransaction (st : SessionState) (commitOutcome : Option String) :
    Except OrmError Unit × SessionState × List String :=
  if st.isReleased then
    (.error .queryRunnerAlreadyReleased, st, [])
  else if !st.isTransactionActive then
    (.error .transactionNotStarted, st, [])
  else
    match commitOutcome with
    | some e => (.error (.driverError e), st, [])
    | none => (.ok (), { st with isTransactionActive := false }, ["COMMIT"])

/-- SqlServerQueryRunner.rollbackTransaction (SqlServerQueryRunner.ts lines 168-194). -/
def sqlserverRollbackTransaction (st : SessionState) (rollbackOutcome : Option String) :
    Except OrmError Unit × SessionState × List String :=
  if st.isReleased then
    (.error .queryRunnerAlreadyReleased, st, [])
  else if !st.isTransactionActive then
    (.error .transactionNotStarted, st, [])
  else
    match rollbackOutcome with
    | some e => (.error (.driverError e), st, [])
    | none => (.ok (), { st with isTransactionActive := false }, ["ROLLBACK"])

/-! ## Statement AST for the MySQL runner

Each constructor stands for one SQL statement shape the MysqlQueryRunner emits; the
interpreter below lifts the database's execution of that statement to the Table
model.  Per spec section 4.3, MySQL has no native unique-constraint objects: a unique
index represents a logical unique constraint, so creating or dropping a unique index
maintains both the index list and the logical unique list. -/

inductive MysqlStmt where
  /-- ALTER TABLE ADD with a full column definition (buildCreateColumnSql with the
  given skipPrimary flag: when set, the rendered definition omits the column-level
  PRIMARY KEY clause). -/
  | addColumn (column : TableColumn) (skipColumnLevelPrimary : Bool)
  /-- ALTER TABLE DROP COLUMN. -/
  | dropColumn (name : String)
  /-- ALTER TABLE ADD UNIQUE INDEX name (column). -/
  | addUniqueIndex (name : String) (columnName : String)
  /-- ALTER TABLE DROP INDEX / DROP INDEX name ON table. -/
  | dropIndex (name : String)
  /-- CREATE [UNIQUE] INDEX name ON table (columns) — createIndexSql. -/
  | createIndex (index : TableIndex)
  /-- ALTER TABLE DROP PRIMARY KEY. -/
  | dropPrimaryKey
  /-- ALTER TABLE ADD PRIMARY KEY (columnNames). -/
  | addPrimaryKey (columnNames : List String)
  /-- ALTER TABLE CHANGE oldName with the full definition of the given column (always
  rendered with skipPrimary, so existing primary-key membership is untouched). -/
  | changeColumn (oldName : String) (column : TableColumn)
  /-- ALTER TABLE CHANGE oldName newName with a type-preserving definition
  (buildCreateColumnSql with skipName: a pure rename). -/
  | renameColumn (oldName newName : String)
  /-- ALTER TABLE DROP INDEX oldName, ADD INDEX newName (columnNames). -/
  | renameIndex (oldName newName : String) (columnNames : List String)
  /-- ALTER TABLE DROP FOREIGN KEY oldName, ADD CONSTRAINT newName FOREIGN KEY. -/
  | renameForeignKey (oldName newName : String) (columnNames : List String)
  /-- RENAME TABLE oldName TO newName. -/
  | renameTable (oldName newName : String)
  deriving Repr, DecidableEq

/-- Effect of one emitted statement on the Table model. -/
def mysqlApplyStmt (t : Table) : MysqlStmt → Table
  | .addColumn c skip =>
      { t with columns := t.columns ++ [{ c with isPrimary := c.isPrimary && !skip }] }
  | .dropColumn n =>
      { t with columns := t.columns.filter (fun c => c.name != n) }
  | .addUniqueIndex nm col =>
      { t with
        indices := t.indices ++ [{ name := nm, columnNames := [col], isUnique := true }],
        uniques := t.uniques ++ [{ name := nm, columnNames := [col] }] }
  | .dropIndex nm =>
      { t with
        indices := t.indices.filter (fun i => i.name != nm),
        uniques := t.uniques.filter (fun u => u.name != nm) }
  | .createIndex idx =>
      { t with
        indices := t.indices ++ [idx],
        uniques :=
          if idx.isUnique then
            t.uniques ++ [{ name := idx.name, columnNames := idx.columnNames }]
          else t.uniques }
  | .dropPrimaryKey =>
      { t with columns := t.columns.map (fun c => { c with isPrimary := false }) }
  | .addPrimaryKey cols =>
      { t with columns := (t.columns.map (fun c =>
          { c with isPrimary := c.isPrimary || cols.contains c.name })) }
  | .changeColumn old c =>
      { t with columns := (t.columns.map (fun x =>
          if x.name == old then { c with isPrimary := x.isPrimary } else x)) }
  | .renameColumn old newName =>
      { t with columns := (t.columns.map (fun x =>
          if x.name == old then { x with name := newName } else x)) }
  | .renameIndex old newName cols =>
      { t with
        indices := (t.indices.map (fun i =>
          if i.name == old then { i with name := newName, columnNames := cols } else i)),
        uniques := (t.uniques.map (fun u =>
          if u.name == old then { u with name := newName, columnNames := cols } else u)) }
  | .renameForeignKey old newName cols =>
      { t with foreignKeys := (t.foreignKeys.map (fun fk =>
          if fk.name == old then { fk with name := newName, columnNames := cols } else fk)) }
  | .renameTable old newName =>
      if t.name == old then { t with name := newName } else t

/-- Replays a statement list in order against the Table model.  An up list is replayed
as generated; a memorized down list is consumed in reverse order (spec section 4.4
requires that replaying down immediately after up restores the prior Table; the
consumer of the memorized down queries is not under src and is modelled from the
spec as reverse-order replay). -/
def replay (stmts : List MysqlStmt) (t : Table) : Table :=
  stmts.foldl mysqlApplyStmt t

/-! ## MySQL mutation methods -/

/-- The increment-generated (AUTO_INCREMENT) column test used throughout the runner. -/
def isIncrementGenerated (c : TableColumn) : Bool :=
  c.isGenerated && c.generationStrategy == some "increment"

/-- The temporary non-generated clone of a generated column (isGenerated = false,
generationStrategy = undefined). -/
def nonGenerated (c : TableColumn) : TableColumn :=
  { c with isGenerated := false, generationStrategy := none }

/-- Result of one schema mutation: the generated up and down statement lists, the
Table the cache holds after the call, and the final state of the Table object the
caller passed in (capturing any in-place mutation the method performs on it). -/
structure MutationResult where
  upQueries : List MysqlStmt
  downQueries : List MysqlStmt
  cachedTable : Table
  originalAfter : Table
  deriving Repr, DecidableEq

/-- MysqlQueryRunner.addColumn (part_000 lines 510-577): add the column; when it joins
an existing primary key, strip AUTO_INCREMENT, drop and re-create the primary key and
restore AUTO_INCREMENT; re-create a known single-column index on it, or synthesize a
unique index (recorded in both the index and the logical unique list) when the column
is marked unique; finally clone-edit and swap the cache.  Note the strip/restore
CHANGE statements really use column.name (the new column), exactly as the source
does. -/
def mysqlAddColumn (table : Table) (column : TableColumn) : MutationResult :=
  let clonedTable := table
  let skipColumnLevelPrimary := !clonedTable.primaryColumns.isEmpty
  let generatedColumn := clonedTable.columns.find? isIncrementGenerated
  let pkStmts : List MysqlStmt × List MysqlStmt :=
    if column.isPrimary && skipColumnLevelPrimary then
      let stripPair : List MysqlStmt × List MysqlStmt :=
        match generatedColumn with
        | some g =>
            ([.changeColumn column.name (nonGenerated g)],
             [.changeColumn (nonGenerated g).name column])
        | none => ([], [])
      let primaryColumns := clonedTable.primaryColumns
      let dropAddPair : List MysqlStmt × List MysqlStmt :=
        ([.dropPrimaryKey, .addPrimaryKey ((primaryColumns ++ [column]).map (·.name))],
         [.addPrimaryKey (primaryColumns.map (·.name)), .dropPrimaryKey])
      let restorePair : List MysqlStmt × List MysqlStmt :=
        match generatedColumn with
        | some g =>
            ([.changeColumn (nonGenerated g).name column],
             [.changeColumn column.name (nonGenerated g)])
        | none => ([], [])
      (stripPair.1 ++ dropAddPair.1 ++ restorePair.1,
       stripPair.2 ++ dropAddPair.2 ++ restorePair.2)
    else ([], [])
  let columnIndex := clonedTable.indices.find? (fun idx =>
      idx.columnNames.length == 1 && idx.columnNames.head? == some column.name)
  let idxRes : List MysqlStmt × List MysqlStmt × Table :=
    match columnIndex with
    | some ci => ([.createIndex ci], [.dropIndex ci.name], clonedTable)
    | none =>
      if column.isUnique then
        let uniqueIndex : TableIndex :=
          { name := indexName table.name [column.name],
            columnNames := [column.name], isUnique := true }
        let clonedTable2 :=
          { clonedTable with
            indices := clonedTable.indices ++ [uniqueIndex],
            uniques := clonedTable.uniques ++
              [{ name := uniqueIndex.name, columnNames := uniqueIndex.columnNames }] }
        ([.addUniqueIndex uniqueIndex.name column.name], [.dropIndex uniqueIndex.name],
         clonedTable2)
      else ([], [], clonedTable)
  { upQueries := [.addColumn column skipColumnLevelPrimary] ++ pkStmts.1 ++ idxRes.1,
    downQueries := [.dropColumn column.name] ++ pkStmts.2 ++ idxRes.2.1,
    cachedTable := (idxRes.2.2).addColumn column,
    originalAfter := table }

/-- MysqlQueryRunner.dropColumn (part_000 lines 808-888): when the column is primary,
strip AUTO_INCREMENT, drop the primary key, re-create it without the column and
restore AUTO_INCREMENT (unless the generated column is the one being dropped); drop a
known single-column index on it, or the synthesized unique index when the column is
marked unique; finally drop the column, clone-edit and swap the cache. -/
def mysqlDropColumn (table : Table) (column : TableColumn) : MutationResult :=
  let clonedTable := table
  let pkRes : List MysqlStmt × List MysqlStmt × Table :=
    if column.isPrimary then
      let generatedColumn := clonedTable.columns.find? isIncrementGenerated
      let stripPair : List MysqlStmt × List MysqlStmt :=
        match generatedColumn with
        | some g =>
            ([.changeColumn g.name (nonGenerated g)],
             [.changeColumn (nonGenerated g).name g])
        | none => ([], [])
      let oldNames := clonedTable.primaryColumns.map (·.name)
      let clonedTable2 :=
        { clonedTable with columns := (clonedTable.columns.map (fun c =>
            if c.name == column.name then { c with isPrimary := false } else c)) }
      let recreatePair : List MysqlStmt × List MysqlStmt :=
        if !clonedTable2.primaryColumns.isEmpty then
          ([.addPrimaryKey (clonedTable2.primaryColumns.map (·.name))], [.dropPrimaryKey])
        else ([], [])
      let restorePair : List MysqlStmt × List MysqlStmt :=
        match generatedColumn with
        | some g =>
          if g.name != column.name then
            ([.changeColumn (nonGenerated g).name g],
             [.changeColumn g.name (nonGenerated g)])
          else ([], [])
        | none => ([], [])
      (stripPair.1 ++ [.dropPrimaryKey] ++ recreatePair.1 ++ restorePair.1,
       stripPair.2 ++ [.addPrimaryKey oldNames] ++ recreatePair.2 ++ restorePair.2,
       clonedTable2)
    else ([], [], clonedTable)
  let ct := pkRes.2.2
  let columnIndex := ct.indices.find? (fun idx =>
      idx.columnNames.length == 1 && idx.columnNames.head? == some column.name)
  let idxRes : List MysqlStmt × List MysqlStmt × Table :=
    match columnIndex with
    | some ci =>
        ([.dropIndex ci.name], [.createIndex ci],
         { ct with indices := ct.indices.erase ci })
    | none =>
      if column.isUnique then
        let uniqueName := uniqueConstraintName table.name [column.name]
        let ct2 :=
          match ct.uniques.find? (·.name == uniqueName) with
          | some fu => { ct with uniques := ct.uniques.erase fu }
          | none => ct
        let idxNm := indexName table.name [column.name]
        let ct3 :=
          match ct2.indices.find? (·.name == idxNm) with
          | some fi => { ct2 with indices := ct2.indices.erase fi }
          | none => ct2
        ([.dropIndex idxNm], [.addUniqueIndex idxNm column.name], ct3)
      else ([], [], ct)
  { upQueries := pkRes.1 ++ idxRes.1 ++ [.dropColumn column.name],
    downQueries := pkRes.2.1 ++ idxRes.2.1 ++ [.addColumn column true],
    cachedTable := (idxRes.2.2).removeColumn column,
    originalAfter := table }

/-- MysqlQueryRunner.updatePrimaryKeys (part_000 lines 920-973): strip AUTO_INCREMENT
from an existing generated column, drop the existing primary key when present, add
the new primary key, and restore AUTO_INCREMENT on the existing or newly generated
column; clone-edit and swap the cache. -/
def mysqlUpdatePrimaryKeys (table : Table) (columns : List TableColumn) : MutationResult :=
  let clonedTable := table
  let columnNames := columns.map (·.name)
  let generatedColumn := clonedTable.columns.find? isIncrementGenerated
  let stripPair : List MysqlStmt × List MysqlStmt :=
    match generatedColumn with
    | some g =>
        ([.changeColumn g.name (nonGenerated g)],
         [.changeColumn (nonGenerated g).name g])
    | none => ([], [])
  let primaryColumns := clonedTable.primaryColumns
  let dropPair : List MysqlStmt × List MysqlStmt :=
    if !primaryColumns.isEmpty then
      ([.dropPrimaryKey], [.addPrimaryKey (primaryColumns.map (·.name))])
    else ([], [])
  let clonedTable2 :=
    { clonedTable with columns := (clonedTable.columns.map (fun c =>
        if columnNames.contains c.name then { c with isPrimary := true } else c)) }
  let addPair : List MysqlStmt × List MysqlStmt :=
    ([.addPrimaryKey columnNames], [.dropPrimaryKey])
  let newOrExistGeneratedColumn :=
    match generatedColumn with
    | some g => some g
    | none => columns.find? isIncrementGenerated
  let restoreRes : (List MysqlStmt × List MysqlStmt) × Table :=
    match newOrExistGeneratedColumn with
    | some ng =>
        (([.changeColumn (nonGenerated ng).name ng],
          [.changeColumn ng.name (nonGenerated ng)]),
         { clonedTable2 with columns := (clonedTable2.columns.map (fun c =>
            if c.name == ng.name then
              { c with isGenerated := true, generationStrategy := some "increment" }
            else c)) })
    | none => (([], []), clonedTable2)
  { upQueries := stripPair.1 ++ dropPair.1 ++ addPair.1 ++ restoreRes.1.1,
    downQueries := stripPair.2 ++ dropPair.2 ++ addPair.2 ++ restoreRes.1.2,
    cachedTable := restoreRes.2,
    originalAfter := table }

/-- MysqlQueryRunner.dropPrimaryKey (part_000 lines 978-986): executes the drop, then
clears the isPrimary flags directly on the Table object it was given — there is no
clone and no replaceCachedTable call, so the cache keeps holding the mutated original
object. -/
def mysqlDropPrimaryKey (table : Table) : MutationResult :=
  let mutated :=
    { table with columns := (table.columns.map (fun c =>
        if c.isPrimary then { c with isPrimary := false } else c)) }
  { upQueries := [.dropPrimaryKey],
    downQueries := [.addPrimaryKey (table.primaryColumns.map (·.name))],
    cachedTable := mutated,
    originalAfter := mutated }

/-- MysqlQueryRunner.renameTable (part_000 lines 436-505): rename the table, rename
every index and foreign key via the naming function recomputed over the new table
name on the clone, then assign the new name to the old Table object as well before
swapping the clone into the cache. -/
def mysqlRenameTable (oldTable : Table) (newTableName : String) : MutationResult :=
  let parts := oldTable.name.splitOn "."
  let dbName : Option String := if parts.length == 1 then none else parts.head?
  let newName :=
    match dbName with
    | some db => db ++ "." ++ newTableName
    | none => newTableName
  let idxUp := oldTable.indices.map (fun index =>
      MysqlStmt.renameIndex index.name (indexName newName index.columnNames) index.columnNames)
  let idxDown := oldTable.indices.map (fun index =>
      MysqlStmt.renameIndex (indexName newName index.columnNames) index.name index.columnNames)
  let newIndices := oldTable.indices.map (fun index =>
      { index with name := indexName newName index.columnNames })
  let fkUp := oldTable.foreignKeys.map (fun fk =>
      MysqlStmt.renameForeignKey fk.name
        (foreignKeyName newName fk.columnNames fk.referencedTableName fk.referencedColumnNames)
        fk.columnNames)
  let fkDown := oldTable.foreignKeys.map (fun fk =>
      MysqlStmt.renameForeignKey
        (foreignKeyName newName fk.columnNames fk.referencedTableName fk.referencedColumnNames)
        fk.name fk.columnNames)
  let newFks := oldTable.foreignKeys.map (fun fk =>
      { fk with name :=
          foreignKeyName newName fk.columnNames fk.referencedTableName fk.referencedColumnNames })
  let newTable :=
    { oldTable with name := newName, indices := newIndices, foreignKeys := newFks }
  { upQueries := [.renameTable oldTable.name newName] ++ idxUp ++ fkUp,
    downQueries := [.renameTable newName oldTable.name] ++ idxDown ++ fkDown,
    cachedTable := newTable,
    originalAfter := { oldTable with name := newName } }

/-! ## changeColumn and the drop-then-add conditions -/

/-- Modelled from the spec: BaseQueryRunner.isColumnChanged — whether column
attributes other than the name changed (the base class is not under src; spec 4.4
treats the remaining attribute changes as an in-place CHANGE). -/
def isColumnChanged (oldColumn newColumn : TableColumn) (checkDefault : Bool) : Bool :=
  oldColumn.type != newColumn.type
  || oldColumn.length != newColumn.length
  || oldColumn.isNullable != newColumn.isNullable
  || (checkDefault && oldColumn.default != newColumn.default)
  || oldColumn.generatedType != newColumn.generatedType

/-- The drop-then-add condition of MysqlQueryRunner.changeColumn (part_000 lines
623-626): generation toggled (except to uuid), or type, length or generatedType
changed. -/
def mysqlRecreateColumnRequired (oldColumn newColumn : TableColumn) : Bool :=
  (newColumn.isGenerated != oldColumn.isGenerated
      && newColumn.generationStrategy != some "uuid")
  || oldColumn.type != newColumn.type
  || oldColumn.length != newColumn.length
  || oldColumn.generatedType != newColumn.generatedType

/-- The drop-then-add condition of PostgresQueryRunner.changeColumn (lines 716-723):
only type, length and array-ness trigger recreation; identity/generation changes are
handled in place further down. -/
def postgresRecreateColumnRequired (oldColumn newColumn : TableColumn) : Bool :=
  oldColumn.type != newColumn.type
  || oldColumn.length != newColumn.length
  || newColumn.isArray != oldColumn.isArray

/-- The drop-then-add condition of SqlServerQueryRunner.changeColumn (lines 816-824):
generation toggled (except to uuid), or type or length changed. -/
def sqlserverRecreateColumnRequired (oldColumn newColumn : TableColumn) : Bool :=
  (newColumn.isGenerated != oldColumn.isGenerated
      && newColumn.generationStrategy != some "uuid")
  || newColumn.type != oldColumn.type
  || newColumn.length != oldColumn.length

/-- The updated column-name list of a renamed constraint: the source splices the old
name out and pushes the new name. -/
def renamedColumnNames (cols : List String) (oldName newName : String) : List String :=
  cols.erase oldName ++ [newName]

/-- The rename cascade of MysqlQueryRunner.changeColumn (part_000 lines 634-699): a
CHANGE statement renaming the column, then every index and every foreign key whose
column list contains the old name is renamed via the naming function recomputed over
the updated column list, each with a forward and an inverse statement; the clone's
column is renamed.  The logical unique list is not touched by this branch. -/
def mysqlChangeColumnRenameBlock (ct : Table) (oldColumn newColumn : TableColumn) :
    List MysqlStmt × List MysqlStmt × Table :=
  if newColumn.name != oldColumn.name then
    let affectedIdx := ct.findColumnIndices oldColumn
    let idxUp := affectedIdx.map (fun index =>
        MysqlStmt.renameIndex index.name
          (indexName ct.name (renamedColumnNames index.columnNames oldColumn.name newColumn.name))
          (renamedColumnNames index.columnNames oldColumn.name newColumn.name))
    let idxDown := affectedIdx.map (fun index =>
        MysqlStmt.renameIndex
          (indexName ct.name (renamedColumnNames index.columnNames oldColumn.name newColumn.name))
          index.name
          (renamedColumnNames index.columnNames oldColumn.name newColumn.name))
    let affectedFk := ct.findColumnForeignKeys oldColumn
    let fkUp := affectedFk.map (fun fk =>
        MysqlStmt.renameForeignKey fk.name
          (foreignKeyName ct.name (renamedColumnNames fk.columnNames oldColumn.name newColumn.name)
            fk.referencedTableName fk.referencedColumnNames)
          (renamedColumnNames fk.columnNames oldColumn.name newColumn.name))
    let fkDown := affectedFk.map (fun fk =>
        MysqlStmt.renameForeignKey
          (foreignKeyName ct.name (renamedColumnNames fk.columnNames oldColumn.name newColumn.name)
            fk.referencedTableName fk.referencedColumnNames)
          fk.name
          (renamedColumnNames fk.columnNames oldColumn.name newColumn.name))
    let ct2 :=
      { ct with
        indices := (ct.indices.map (fun index =>
          if index.columnNames.contains oldColumn.name then
            { index with
              name := indexName ct.name
                (renamedColumnNames index.columnNames oldColumn.name newColumn.name),
              columnNames := renamedColumnNames index.columnNames oldColumn.name newColumn.name }
          else index)),
        foreignKeys := (ct.foreignKeys.map (fun fk =>
          if fk.columnNames.contains oldColumn.name then
            { fk with
              name := foreignKeyName ct.name
                (renamedColumnNames fk.columnNames oldColumn.name newColumn.name)
                fk.referencedTableName fk.referencedColumnNames,
              columnNames := renamedColumnNames fk.columnNames oldColumn.name newColumn.name }
          else fk)),
        columns := (ct.columns.map (fun c =>
          if c.name == oldColumn.name then { c with name := newColumn.name } else c)) }
    ([.renameColumn oldColumn.name newColumn.name] ++ idxUp ++ fkUp,
     [.renameColumn newColumn.name oldColumn.name] ++ idxDown ++ fkDown,
     ct2)
  else ([], [], ct)

/-- The primary-key membership branch of MysqlQueryRunner.changeColumn (part_000 lines
706-760): strip AUTO_INCREMENT from an existing generated column, drop the existing
primary key, re-create it with the column added or removed, restore AUTO_INCREMENT. -/
def mysqlChangeColumnPrimaryBlock (ct : Table) (oldColumn newColumn : TableColumn) :
    List MysqlStmt × List MysqlStmt × Table :=
  if newColumn.isPrimary != oldColumn.isPrimary then
    let generatedColumn := ct.columns.find? isIncrementGenerated
    let stripPair : List MysqlStmt × List MysqlStmt :=
      match generatedColumn with
      | some g =>
          ([.changeColumn g.name (nonGenerated g)],
           [.changeColumn (nonGenerated g).name g])
      | none => ([], [])
    let primaryColumns := ct.primaryColumns
    let dropPair : List MysqlStmt × List MysqlStmt :=
      if !primaryColumns.isEmpty then
        ([.dropPrimaryKey], [.addPrimaryKey (primaryColumns.map (·.name))])
      else ([], [])
    let addRes : (List MysqlStmt × List MysqlStmt) × Table :=
      if newColumn.isPrimary then
        let ct2 := { ct with columns := (ct.columns.map (fun c =>
            if c.name == newColumn.name then { c with isPrimary := true } else c)) }
        (([.addPrimaryKey ((primaryColumns ++ [newColumn]).map (·.name))], [.dropPrimaryKey]),
         ct2)
      else
        let remaining := primaryColumns.filter (fun c => c.name != newColumn.name)
        let ct2 := { ct with columns := (ct.columns.map (fun c =>
            if c.name == newColumn.name then { c with isPrimary := false } else c)) }
        if !remaining.isEmpty then
          (([.addPrimaryKey (remaining.map (·.name))], [.dropPrimaryKey]), ct2)
        else (([], []), ct2)
    let restorePair : List MysqlStmt × List MysqlStmt :=
      match generatedColumn with
      | some g =>
          ([.changeColumn (nonGenerated g).name g],
           [.changeColumn g.name (nonGenerated g)])
      | none => ([], [])
    (stripPair.1 ++ dropPair.1 ++ addRes.1.1 ++ restorePair.1,
     stripPair.2 ++ dropPair.2 ++ addRes.1.2 ++ restorePair.2,
     addRes.2)
  else ([], [], ct)

/-- The unique membership branch of MysqlQueryRunner.changeColumn (part_000 lines
762-789): synthesize or drop the dedicated unique index, maintaining both the index
list and the logical unique list. -/
def mysqlChangeColumnUniqueBlock (tableName : String) (ct : Table)
    (oldColumn newColumn : TableColumn) : List MysqlStmt × List MysqlStmt × Table :=
  if newColumn.isUnique != oldColumn.isUnique then
    if newColumn.isUnique then
      let uniqueIndex : TableIndex :=
        { name := indexName tableName [newColumn.name],
          columnNames := [newColumn.name], isUnique := true }
      let ct2 :=
        { ct with
          indices := ct.indices ++ [uniqueIndex],
          uniques := ct.uniques ++
            [{ name := uniqueIndex.name, columnNames := uniqueIndex.columnNames }] }
      ([.addUniqueIndex uniqueIndex.name newColumn.name], [.dropIndex uniqueIndex.name], ct2)
    else
      match ct.indices.find? (fun index =>
          index.columnNames.length == 1 && index.isUnique
            && index.columnNames.contains newColumn.name) with
      | some uniqueIndex =>
        let ct2 := { ct with indices := ct.indices.erase uniqueIndex }
        let ct3 :=
          match ct2.uniques.find? (·.name == uniqueIndex.name) with
          | some tu => { ct2 with uniques := ct2.uniques.erase tu }
          | none => ct2
        ([.dropIndex uniqueIndex.name], [.addUniqueIndex uniqueIndex.name newColumn.name], ct3)
      | none => ([], [], ct)
  else ([], [], ct)

/-- MysqlQueryRunner.changeColumn (part_000 lines 611-794).  In the recreate branch
the second sub-call reads the cache entry updated by the first (the source passes the
cached table object, which replaceCachedTable — modelled from the spec as the
cache-entry swap — has brought up to date). -/
def mysqlChangeColumn (table : Table) (oldColumn newColumn : TableColumn) : MutationResult :=
  if mysqlRecreateColumnRequired oldColumn newColumn then
    let r1 := mysqlDropColumn table oldColumn
    let r2 := mysqlAddColumn r1.cachedTable newColumn
    { upQueries := r1.upQueries ++ r2.upQueries,
      downQueries := r1.downQueries ++ r2.downQueries,
      cachedTable := r2.cachedTable,
      originalAfter := table }
  else
    let renameRes := mysqlChangeColumnRenameBlock table oldColumn newColumn
    let oldColumn2 :=
      if newColumn.name != oldColumn.name then { oldColumn with name := newColumn.name }
      else oldColumn
    let changedPair : List MysqlStmt × List MysqlStmt :=
      if isColumnChanged oldColumn2 newColumn true then
        ([.changeColumn oldColumn2.name newColumn], [.changeColumn newColumn.name oldColumn2])
      else ([], [])
    let primRes := mysqlChangeColumnPrimaryBlock renameRes.2.2 oldColumn2 newColumn
    let uniqRes := mysqlChangeColumnUniqueBlock table.name primRes.2.2 oldColumn2 newColumn
    { upQueries := renameRes.1 ++ changedPair.1 ++ primRes.1 ++ uniqRes.1,
      downQueries := renameRes.2.1 ++ changedPair.2 ++ primRes.2.1 ++ uniqRes.2.1,
      cachedTable := uniqRes.2.2,
      originalAfter := table }

/-! ## Claim C2: clearDatabase error discipline

MysqlQueryRunner.clearDatabase (part_000 lines 1179-1213) and
PostgresQueryRunner.clearDatabase (PostgresQueryRunner.ts lines 1420-1467): start a
transaction, run the drop sequence and COMMIT inside a try block, and on any failure
attempt a rollback whose own error is swallowed, re-throwing the original error.
The environment records the outcome of each awaited step (none = success); Promise.all
batches are modelled as sequential execution aborted at the first failing drop.
The result is paired with the trace of session actions. -/

inductive ClearAction where
  | startTx
  | statement (sql : String)
  | commitTx
  | rollbackTx
  deriving Repr, DecidableEq

structure MysqlClearEnv where
  database : Option String
  dbExists : Bool
  startOutcome : Option OrmError := none
  selectViews : Except OrmError (List String)
  viewDrop : String → Option OrmError
  fkOff : Option OrmError := none
  selectTables : Except OrmError (List String)
  tableDrop : String → Option OrmError
  fkOn : Option OrmError := none
  commitOutcome : Option OrmError := none
  rollbackOutcome : Option OrmError := none

/-- Runs a batch of generated drop statements, stopping at the first failure. -/
def runDrops (outcome : String → Option OrmError) : List String → Option OrmError × List ClearAction
  | [] => (none, [])
  | q :: rest =>
    match outcome q with
    | some e => (some e, [.statement q])
    | none =>
      let r := runDrops outcome rest
      (r.1, .statement q :: r.2)

/-- The try-block of MysqlQueryRunner.clearDatabase: select view drops, run them,
disable FK checks, select table drops, run them, re-enable FK checks, COMMIT. -/
def mysqlClearBody (env : MysqlClearEnv) (dbName : String) :
    Option OrmError × List ClearAction :=
  let selectViewDropsQuery := "SELECT VIEW DROP QUERIES FOR " ++ dbName
  match env.selectViews with
  | .error e => (some e, [.statement selectViewDropsQuery])
  | .ok viewDropQueries =>
    let rv := runDrops env.viewDrop viewDropQueries
    let tr0 := ClearAction.statement selectViewDropsQuery :: rv.2
    match rv.1 with
    | some e => (some e, tr0)
    | none =>
      match env.fkOff with
      | some e => (some e, tr0 ++ [.statement "SET FOREIGN_KEY_CHECKS = 0;"])
      | none =>
        let selectTablesQuery := "SELECT TABLE DROP QUERIES FOR " ++ dbName
        let tr1 := tr0 ++ [ClearAction.statement "SET FOREIGN_KEY_CHECKS = 0;"]
        match env.selectTables with
        | .error e => (some e, tr1 ++ [.statement selectTablesQuery])
        | .ok tableDropQueries =>
          let rt := runDrops env.tableDrop tableDropQueries
          let tr2 := tr1 ++ ClearAction.statement selectTablesQuery :: rt.2
          match rt.1 with
          | some e => (some e, tr2)
          | none =>
            match env.fkOn with
            | some e => (some e, tr2 ++ [.statement "SET FOREIGN_KEY_CHECKS = 1;"])
            | none =>
              let tr3 := tr2 ++ [ClearAction.statement "SET FOREIGN_KEY_CHECKS = 1;"]
              match env.commitOutcome with
              | some e => (some e, tr3 ++ [.commitTx])
              | none => (none, tr3 ++ [.commitTx])

/-- MysqlQueryRunner.clearDatabase.  The catch block attempts rollbackTransaction and
ignores its outcome (env.rollbackOutcome is deliberately never consulted, exactly as
the source swallows rollbackError), then re-throws the original error. -/
def mysqlClearDatabase (env : MysqlClearEnv) : Except OrmError Unit × List ClearAction :=
  match env.database with
  | none => (.error (.typeormError "Can not clear database. No database is specified"), [])
  | some dbName =>
    if !env.dbExists then (.ok (), [])
    else
      match env.startOutcome with
      | some e => (.error e, [.startTx])
      | none =>
        match mysqlClearBody env dbName with
        | (none, tr) => (.ok (), .startTx :: tr)
        | (some e, tr) => (.error e, .startTx :: tr ++ [.rollbackTx])

structure PostgresClearEnv where
  startOutcome : Option OrmError := none
  selectViews : Except OrmError (List String)
  viewDrop : String → Option OrmError
  selectMatViews : Except OrmError (List String)
  matViewDrop : String → Option OrmError
  selectTables : Except OrmError (List String)
  tableDrop : String → Option OrmError
  dropEnums : Option OrmError := none
  commitOutcome : Option OrmError := none
  rollbackOutcome : Option OrmError := none

/-- The try-block of PostgresQueryRunner.clearDatabase: views, materialized views,
tables, enum types, COMMIT. -/
def postgresClearBody (env : PostgresClearEnv) : Option OrmError × List ClearAction :=
  match env.selectViews with
  | .error e => (some e, [.statement "SELECT VIEW DROP QUERIES"])
  | .ok viewDropQueries =>
    let rv := runDrops env.viewDrop viewDropQueries
    let tr0 := ClearAction.statement "SELECT VIEW DROP QUERIES" :: rv.2
    match rv.1 with
    | some e => (some e, tr0)
    | none =>
      match env.selectMatViews with
      | .error e => (some e, tr0 ++ [.statement "SELECT MATERIALIZED VIEW DROP QUERIES"])
      | .ok matViewDropQueries =>
        let rm := runDrops env.matViewDrop matViewDropQueries
        let tr1 := tr0 ++ ClearAction.statement "SELECT MATERIALIZED VIEW DROP QUERIES" :: rm.2
        match rm.1 with
        | some e => (some e, tr1)
        | none =>
          match env.selectTables with
          | .error e => (some e, tr1 ++ [.statement "SELECT TABLE DROP QUERIES"])
          | .ok tableDropQueries =>
            let rt := runDrops env.tableDrop tableDropQueries
            let tr2 := tr1 ++ ClearAction.statement "SELECT TABLE DROP QUERIES" :: rt.2
            match rt.1 with
            | some e => (some e, tr2)
            | none =>
              match env.dropEnums with
              | some e => (some e, tr2 ++ [.statement "DROP ENUM TYPES"])
              | none =>
                let tr3 := tr2 ++ [ClearAction.statement "DROP ENUM TYPES"]
                match env.commitOutcome with
                | some e => (some e, tr3 ++ [.commitTx])
                | none => (none, tr3 ++ [.commitTx])

/-- PostgresQueryRunner.clearDatabase: the same start / try / rollback-suppressing
catch skeleton as the MySQL runner. -/
def postgresClearDatabase (env : PostgresClearEnv) : Except OrmError Unit × List ClearAction :=
  match env.startOutcome with
  | some e => (.error e, [.startTx])
  | none =>
    match postgresClearBody env with
    | (none, tr) => (.ok (), .startTx :: tr)
    | (some e, tr) => (.error e, .startTx :: tr ++ [.rollbackTx])

/-! ### C9 theorem -/

/-- Claim C9: for every input, MysqlQueryRunner.createUniqueConstraint and
dropUniqueConstraint fail with the unsupported-operation TypeORMError and send no SQL
to the database. -/
theorem mysql_unique_constraint_entry_points_unsupported
    (tn : String) (u : TableUnique) (un : String) :
    mysqlCreateUniqueConstraint tn u =
      (.error (.typeormError "MySql does not support unique constraints. Use unique index instead."), [])
    ∧ mysqlDropUniqueConstraint tn un =
      (.error (.typeormError "MySql does not support unique constraints. Use unique index instead."), []) :=
  ⟨rfl, rfl⟩

/-! ### C3 theorem -/

/-- Claim C3: on every dialect, query() on a released session fails with
QueryRunnerAlreadyReleasedError and issues no statement to the driver, whether or not
a connection was ever obtained and whatever the driver would have answered. -/
theorem query_after_release_always_fails
    (st : SessionState) (h : st.isReleased = true)
    (q : String) (d : Option String) (isConnected : Bool) :
    mysqlQuery st q d = (.error .queryRunnerAlreadyReleased, [])
    ∧ sqliteQuery st isConnected q d = (.error .queryRunnerAlreadyReleased, [])
    ∧ postgresQuery st q d = (.error .queryRunnerAlreadyReleased, []) := by
  refine ⟨?_, ?_, ?_⟩ <;> simp [mysqlQuery, sqliteQuery, postgresQuery, h]

/-- Witness for C3 at a concrete released session (with and without a connection). -/
theorem query_after_release_always_fails_witness :
    SessionState.isReleased { isReleased := true, hasConnection := false } = true
    ∧ mysqlQuery { isReleased := true, hasConnection := false } "SELECT 1" none =
        (.error .queryRunnerAlreadyReleased, []) :=
  ⟨rfl, (query_after_release_always_fails
      { isReleased := true, hasConnection := false } rfl "SELECT 1" none true).1⟩

/-! ### C4 theorem -/

/-- Claim C4: the transaction state machine has exactly the idle/active states with no
nesting, on MySQL and SQL Server: startTransaction on an active session fails with
TransactionAlreadyStartedError; commit/rollback on an idle session fail with
TransactionNotStartedError; a successful start moves idle to active; a successful
commit or rollback moves active back to idle. -/
theorem transaction_state_machine
    (st : SessionState) (iso : Option String) :
    (st.isTransactionActive = true →
      (mysqlStartTransaction st iso).1 = .error .transactionAlreadyStarted
      ∧ (sqlserverStartTransaction st iso none).1 = .error .transactionAlreadyStarted
        ∨ st.isReleased = true)
    ∧ (st.isTransactionActive = false →
      (mysqlCommitTransaction st).1 = .error .transactionNotStarted
      ∧ (mysqlRollbackTransaction st).1 = .error .transactionNotStarted
      ∧ ((sqlserverCommitTransaction st none).1 = .error .transactionNotStarted
          ∨ st.isReleased = true)
      ∧ ((sqlserverRollbackTransaction st none).1 = .error .transactionNotStarted
          ∨ st.isReleased = true))
    ∧ (st.isTransactionActive = false → st.isReleased = false →
      (mysqlStartTransaction st iso).1 = .ok ()
      ∧ (mysqlStartTransaction st iso).2.1.isTransactionActive = true
      ∧ (sqlserverStartTransaction st iso none).1 = .ok ()
      ∧ (sqlserverStartTransaction st iso none).2.1.isTransactionActive = true)
    ∧ (st.isTransactionActive = true → st.isReleased = false →
      (mysqlCommitTransaction st).1 = .ok ()
      ∧ (mysqlCommitTransaction st).2.1.isTransactionActive = false
      ∧ (mysqlRollbackTransaction st).1 = .ok ()
      ∧ (mysqlRollbackTransaction st).2.1.isTransactionActive = false
      ∧ (sqlserverCommitTransaction st none).1 = .ok ()
      ∧ (sqlserverCommitTransaction st none).2.1.isTransactionActive = false
      ∧ (sqlserverRollbackTransaction st none).1 = .ok ()
      ∧ (sqlserverRollbackTransaction st none).2.1.isTransactionActive = false) := by
  refine ⟨?_, ?_, ?_, ?_⟩
  · intro h
    by_cases hr : st.isReleased = true
    · exact Or.inr hr
    · left
      simp only [Bool.not_eq_true] at hr
      constructor
      · simp [mysqlStartTransaction, h]
      · simp [sqlserverStartTransaction, h, hr]
  · intro h
    refine ⟨?_, ?_, ?_, ?_⟩
    · simp [mysqlCommitTransaction, h]
    · simp [mysqlRollbackTransaction, h]
    · by_cases hr : st.isReleased = true
      · exact Or.inr hr
      · left
        simp only [Bool.not_eq_true] at hr
        simp [sqlserverCommitTransaction, h, hr]
    · by_cases hr : st.isReleased = true
      · exact Or.inr hr
      · left
        simp only [Bool.not_eq_true] at hr
        simp [sqlserverRollbackTransaction, h, hr]
  · intro h hr
    cases iso <;>
      simp [mysqlStartTransaction, sqlserverStartTransaction, h, hr]
  · intro h hr
    simp [mysqlCommitTransaction, mysqlRollbackTransaction,
      sqlserverCommitTransaction, sqlserverRollbackTransaction, h, hr]

/-- Witness for C4 at a concrete idle, unreleased session. -/
theorem transaction_state_machine_witness :
    SessionState.isTransactionActive { isReleased := false } = false
    ∧ (mysqlCommitTransaction { isReleased := false }).1 = .error .transactionNotStarted :=
  ⟨rfl, ((transaction_state_machine { isReleased := false } none).2.1 rfl).1⟩

/-! ### C2 theorem -/

/-- Claim C2: whenever any step of the clearDatabase try-block fails after the
transaction started, a rollback is attempted, the caller observes the original error,
and the result is independent of whether the rollback itself fails — on both the
MySQL and the Postgres runner. -/
theorem clearDatabase_rolls_back_and_rethrows_original
    (env : MysqlClearEnv) (dbName : String) (e : OrmError)
    (hdb : env.database = some dbName) (hex : env.dbExists = true)
    (hstart : env.startOutcome = none)
    (hfail : (mysqlClearBody env dbName).1 = some e)
    (penv : PostgresClearEnv) (pe : OrmError)
    (hpstart : penv.startOutcome = none)
    (hpfail : (postgresClearBody penv).1 = some pe) :
    (mysqlClearDatabase env).1 = .error e
    ∧ ClearAction.rollbackTx ∈ (mysqlClearDatabase env).2
    ∧ (∀ ro, mysqlClearDatabase { env with rollbackOutcome := ro } = mysqlClearDatabase env)
    ∧ (postgresClearDatabase penv).1 = .error pe
    ∧ ClearAction.rollbackTx ∈ (postgresClearDatabase penv).2
    ∧ (∀ ro, postgresClearDatabase { penv with rollbackOutcome := ro } = postgresClearDatabase penv) := by
  rcases hb : mysqlClearBody env dbName with ⟨r, tr⟩
  rcases hpb : postgresClearBody penv with ⟨pr, ptr⟩
  rw [hb] at hfail
  rw [hpb] at hpfail
  simp only at hfail hpfail
  subst hfail
  subst hpfail
  refine ⟨?_, ?_, ?_, ?_, ?_, ?_⟩
  · simp [mysqlClearDatabase, hdb, hex, hstart, hb]
  · simp [mysqlClearDatabase, hdb, hex, hstart, hb]
  · intro ro; rfl
  · simp [postgresClearDatabase, hpstart, hpb]
  · simp [postgresClearDatabase, hpstart, hpb]
  · intro ro; rfl

/-- A concrete environment in which one generated DROP TABLE statement fails. -/
def mysqlClearEnvFail : MysqlClearEnv where
  database := some "db"
  dbExists := true
  selectViews := .ok []
  viewDrop := fun _ => none
  selectTables := .ok ["DROP TABLE IF EXISTS x"]
  tableDrop := fun q => some (.queryFailed q)
  rollbackOutcome := some (.queryFailed "ROLLBACK")

/-- A concrete Postgres environment in which one view drop fails. -/
def postgresClearEnvFail : PostgresClearEnv where
  selectViews := .ok ["DROP VIEW v CASCADE;"]
  viewDrop := fun q => some (.queryFailed q)
  selectMatViews := .ok []
  matViewDrop := fun _ => none
  selectTables := .ok []
  tableDrop := fun _ => none

/-- Witness for C2: at the concrete failing environments the original error surfaces
and the rollback appears in the trace. -/
theorem clearDatabase_rolls_back_and_rethrows_original_witness :
    (mysqlClearDatabase mysqlClearEnvFail).1 = .error (.queryFailed "DROP TABLE IF EXISTS x")
    ∧ ClearAction.rollbackTx ∈ (mysqlClearDatabase mysqlClearEnvFail).2 :=
  ⟨(clearDatabase_rolls_back_and_rethrows_original mysqlClearEnvFail "db"
      (.queryFailed "DROP TABLE IF EXISTS x") rfl rfl rfl rfl
      postgresClearEnvFail (.queryFailed "DROP VIEW v CASCADE;") rfl rfl).1,
   (clearDatabase_rolls_back_and_rethrows_original mysqlClearEnvFail "db"
      (.queryFailed "DROP TABLE IF EXISTS x") rfl rfl rfl rfl
      postgresClearEnvFail (.queryFailed "DROP VIEW v CASCADE;") rfl rfl).2.1⟩

/-! ### C6: drop-then-add versus in-place alter -/

/-- A column pair differing only in identity/generation: same type and length, old
column plain, new column increment-generated. -/
def c6OldColumn : TableColumn := { name := "cnt", type := "integer" }

def c6NewColumn : TableColumn :=
  { name := "cnt", type := "integer", isGenerated := true,
    generationStrategy := some "increment" }

/-- Claim C6 counterexample: these columns differ in identity/generation strategy,
yet the Postgres runner's changeColumn does not take the drop-then-add branch for
them (its condition tests only type, length and array-ness), so the change is applied
in place, contradicting the claim's "never as an in-place alter". -/
theorem changeColumn_identity_change_in_place_on_postgres :
    c6OldColumn.isGenerated ≠ c6NewColumn.isGenerated
    ∧ c6OldColumn.generationStrategy ≠ c6NewColumn.generationStrategy
    ∧ postgresRecreateColumnRequired c6OldColumn c6NewColumn = false := by
  refine ⟨by decide, by decide, by decide⟩

/-- Claim C6 (amended): a type or length difference always forces drop-then-add, on
MySQL, Postgres and SQL Server alike; a change of the identity/generation flag forces
it on MySQL and SQL Server only when the new column's strategy is not uuid; Postgres
recreates only for type, length or array changes and alters identity in place.  When
the MySQL condition holds, changeColumn really executes dropColumn followed by
addColumn. -/
theorem changeColumn_recreate_condition
    (t : Table) (oldColumn newColumn : TableColumn) :
    ((oldColumn.type ≠ newColumn.type ∨ oldColumn.length ≠ newColumn.length) →
      mysqlRecreateColumnRequired oldColumn newColumn = true
      ∧ postgresRecreateColumnRequired oldColumn newColumn = true
      ∧ sqlserverRecreateColumnRequired oldColumn newColumn = true)
    ∧ (oldColumn.isGenerated ≠ newColumn.isGenerated →
        newColumn.generationStrategy ≠ some "uuid" →
      mysqlRecreateColumnRequired oldColumn newColumn = true
      ∧ sqlserverRecreateColumnRequired oldColumn newColumn = true)
    ∧ (mysqlRecreateColumnRequired oldColumn newColumn = true →
      (mysqlChangeColumn t oldColumn newColumn).upQueries =
        (mysqlDropColumn t oldColumn).upQueries
          ++ (mysqlAddColumn (mysqlDropColumn t oldColumn).cachedTable newColumn).upQueries) := by
  refine ⟨?_, ?_, ?_⟩
  · intro h
    refine ⟨?_, ?_, ?_⟩ <;>
      · simp only [mysqlRecreateColumnRequired, postgresRecreateColumnRequired,
          sqlserverRecreateColumnRequired, Bool.or_eq_true, bne_iff_ne]
        tauto
  · intro h hu
    constructor <;>
      · simp only [mysqlRecreateColumnRequired, sqlserverRecreateColumnRequired,
          Bool.or_eq_true, Bool.and_eq_true, bne_iff_ne]
        tauto
  · intro h
    simp [mysqlChangeColumn, h]

/-- Witness for C6 (amended) at a concrete type change. -/
theorem changeColumn_recreate_condition_witness :
    (TableColumn.type { name := "a", type := "int" } ≠
        TableColumn.type { name := "a", type := "text" }
      ∨ TableColumn.length { name := "a", type := "int" } ≠
        TableColumn.length { name := "a", type := "text" })
    ∧ mysqlRecreateColumnRequired { name := "a", type := "int" }
        { name := "a", type := "text" } = true :=
  ⟨Or.inl (by decide),
    ((changeColumn_recreate_condition { name := "t" } { name := "a", type := "int" }
      { name := "a", type := "text" }).1 (Or.inl (by decide))).1⟩

/-! ### C10: clone-and-swap discipline -/

/-- A concrete cached table with a primary column. -/
def c10Table : Table :=
  { name := "post", columns := [{ name := "id", type := "int", isPrimary := true }] }

/-- Claim C10 counterexample: dropPrimaryKey clears the isPrimary flags directly on
the Table object it was handed (and performs no cache swap), so the previously cached
object does not survive the operation unmodified. -/
theorem dropPrimaryKey_mutates_cached_table_in_place :
    (mysqlDropPrimaryKey c10Table).originalAfter ≠ c10Table := by decide

/-- Claim C10 (amended): addColumn, dropColumn, changeColumn and updatePrimaryKeys
leave the passed Table object unmodified and install an edited clone, but
dropPrimaryKey mutates the passed object in place (clearing every isPrimary flag)
with no clone being swapped in, and renameTable assigns the new name to the old
object before swapping the clone. -/
theorem mutation_cache_discipline
    (t : Table) (c d : TableColumn) (n : String) :
    (mysqlAddColumn t c).originalAfter = t
    ∧ (mysqlDropColumn t c).originalAfter = t
    ∧ (mysqlChangeColumn t c d).originalAfter = t
    ∧ (mysqlUpdatePrimaryKeys t [c]).originalAfter = t
    ∧ (mysqlDropPrimaryKey t).originalAfter =
        { t with columns := (t.columns.map (fun col =>
            if col.isPrimary then { col with isPrimary := false } else col)) }
    ∧ (mysqlDropPrimaryKey t).cachedTable = (mysqlDropPrimaryKey t).originalAfter
    ∧ (mysqlRenameTable t n).originalAfter.name = (mysqlRenameTable t n).cachedTable.name := by
  refine ⟨rfl, rfl, ?_, rfl, rfl, rfl, rfl⟩
  by_cases h : mysqlRecreateColumnRequired c d = true
  · simp [mysqlChangeColumn, h]
  · simp [mysqlChangeColumn, h]

/-! ### C7: rename cascade -/

/-- A table with a unique index and its paired logical unique constraint on the
column about to be renamed. -/
def c7Table : Table :=
  { name := "person",
    columns := [{ name := "name", type := "varchar" }],
    indices := [{ name := "IDX_person_name", columnNames := ["name"], isUnique := true }],
    uniques := [{ name := "UQ_person_name", columnNames := ["name"] }] }

def c7Result : MutationResult :=
  mysqlChangeColumn c7Table { name := "name", type := "varchar" }
    { name := "label", type := "varchar" }

/-- Claim C7 counterexample: renaming column name to label on the MySQL runner
renames the index, but the logical unique-constraint object whose column list
references the renamed column is left entirely untouched — its column list still
holds the old name and its identifier is not the one recomputed by the naming
function — and no statement for it is generated. -/
theorem mysql_rename_skips_logical_uniques :
    c7Result.cachedTable.uniques = [{ name := "UQ_person_name", columnNames := ["name"] }]
    ∧ uniqueConstraintName "person" ["label"] ≠ "UQ_person_name"
    ∧ c7Result.upQueries =
        [.renameColumn "name" "label",
         .renameIndex "IDX_person_name" "IDX_person_label" ["label"]] := by
  refine ⟨by decide, by decide, by decide⟩

/-- Claim C7 (amended): on the MySQL runner a column rename cascades to every index
and every foreign key whose column list references the renamed column — each renamed
to the identifier recomputed by the naming function over the updated column list,
with a forward and an inverse statement generated — but not to the logical
unique-constraint objects, which are left untouched (no statement and no model edit);
MySQL has no native unique, check or default-value constraint objects. -/
theorem mysql_rename_cascades_exactly_indices_and_foreign_keys
    (t : Table) (oldColumn newColumn : TableColumn)
    (hname : newColumn.name ≠ oldColumn.name)
    (hrec : mysqlRecreateColumnRequired oldColumn newColumn = false)
    (hchg : isColumnChanged { oldColumn with name := newColumn.name } newColumn true = false)
    (hprim : newColumn.isPrimary = oldColumn.isPrimary)
    (huniq : newColumn.isUnique = oldColumn.isUnique) :
    (∀ index ∈ t.indices, index.columnNames.contains oldColumn.name →
      MysqlStmt.renameIndex index.name
          (indexName t.name (renamedColumnNames index.columnNames oldColumn.name newColumn.name))
          (renamedColumnNames index.columnNames oldColumn.name newColumn.name)
        ∈ (mysqlChangeColumn t oldColumn newColumn).upQueries
      ∧ MysqlStmt.renameIndex
          (indexName t.name (renamedColumnNames index.columnNames oldColumn.name newColumn.name))
          index.name
          (renamedColumnNames index.columnNames oldColumn.name newColumn.name)
        ∈ (mysqlChangeColumn t oldColumn newColumn).downQueries)
    ∧ (∀ fk ∈ t.foreignKeys, fk.columnNames.contains oldColumn.name →
      MysqlStmt.renameForeignKey fk.name
          (foreignKeyName t.name (renamedColumnNames fk.columnNames oldColumn.name newColumn.name)
            fk.referencedTableName fk.referencedColumnNames)
          (renamedColumnNames fk.columnNames oldColumn.name newColumn.name)
        ∈ (mysqlChangeColumn t oldColumn newColumn).upQueries
      ∧ MysqlStmt.renameForeignKey
          (foreignKeyName t.name (renamedColumnNames fk.columnNames oldColumn.name newColumn.name)
            fk.referencedTableName fk.referencedColumnNames)
          fk.name
          (renamedColumnNames fk.columnNames oldColumn.name newColumn.name)
        ∈ (mysqlChangeColumn t oldColumn newColumn).downQueries)
    ∧ (mysqlChangeColumn t oldColumn newColumn).cachedTable.uniques = t.uniques
    ∧ (mysqlChangeColumn t oldColumn newColumn).cachedTable.indices =
        (t.indices.map (fun index =>
          if index.columnNames.contains oldColumn.name then
            { index with
              name := indexName t.name
                (renamedColumnNames index.columnNames oldColumn.name newColumn.name),
              columnNames := renamedColumnNames index.columnNames oldColumn.name newColumn.name }
          else index)) := by
  have hname2 : (newColumn.name != oldColumn.name) = true := by
    simpa [bne_iff_ne] using hname
  have hrec2 : mysqlRecreateColumnRequired oldColumn newColumn ≠ true := by
    simp [hrec]
  have hprim2 : (newColumn.isPrimary != { oldColumn with name := newColumn.name }.isPrimary) = false := by
    simp [hprim]
  have huniq2 : (newColumn.isUnique != { oldColumn with name := newColumn.name }.isUnique) = false := by
    simp [huniq]
  refine ⟨?_, ?_, ?_, ?_⟩
  · intro index hmem hcont
    constructor <;>
    · simp only [mysqlChangeColumn, if_neg hrec2, mysqlChangeColumnRenameBlock, hname2,
        if_true, hchg, Bool.false_eq_true, if_false, mysqlChangeColumnPrimaryBlock,
        hprim2, mysqlChangeColumnUniqueBlock, huniq2, List.append_nil, List.mem_append,
        List.mem_cons, List.mem_map]
      exact Or.inl (Or.inr
        ⟨index, by
          simp [Table.findColumnIndices, List.mem_filter, hmem]
          simpa using hcont, rfl⟩)
  · intro fk hmem hcont
    constructor <;>
    · simp only [mysqlChangeColumn, if_neg hrec2, mysqlChangeColumnRenameBlock, hname2,
        if_true, hchg, Bool.false_eq_true, if_false, mysqlChangeColumnPrimaryBlock,
        hprim2, mysqlChangeColumnUniqueBlock, huniq2, List.append_nil, List.mem_append,
        List.mem_cons, List.mem_map]
      exact Or.inr
        ⟨fk, by
          simp [Table.findColumnForeignKeys, List.mem_filter, hmem]
          simpa using hcont, rfl⟩
  · simp only [mysqlChangeColumn, if_neg hrec2, mysqlChangeColumnRenameBlock, hname2,
      if_true, hchg, Bool.false_eq_true, if_false, mysqlChangeColumnPrimaryBlock,
      hprim2, mysqlChangeColumnUniqueBlock, huniq2]
  · simp only [mysqlChangeColumn, if_neg hrec2, mysqlChangeColumnRenameBlock, hname2,
      if_true, hchg, Bool.false_eq_true, if_false, mysqlChangeColumnPrimaryBlock,
      hprim2, mysqlChangeColumnUniqueBlock, huniq2]

/-- Witness for C7 (amended) at the concrete table, checking the renamed index
statement is generated and the uniques list survives untouched. -/
theorem mysql_rename_cascades_exactly_indices_and_foreign_keys_witness :
    MysqlStmt.renameIndex "IDX_person_name" "IDX_person_label" ["label"]
      ∈ c7Result.upQueries
    ∧ c7Result.cachedTable.uniques = c7Table.uniques :=
  ⟨by
    have h := (mysql_rename_cascades_exactly_indices_and_foreign_keys c7Table
      { name := "name", type := "varchar" } { name := "label", type := "varchar" }
      (by decide) (by decide) (by decide) (by decide) (by decide)).1
      { name := "IDX_person_name", columnNames := ["name"], isUnique := true }
      (by decide) (by decide)
    simpa [c7Result, c7Table, renamedColumnNames, indexName] using h.1,
   by
    have h := (mysql_rename_cascades_exactly_indices_and_foreign_keys c7Table
      { name := "name", type := "varchar" } { name := "label", type := "varchar" }
      (by decide) (by decide) (by decide) (by decide) (by decide)).2.2.1
    simpa [c7Result, c7Table] using h⟩

/-! ### C1: up/down round trip for addColumn and dropColumn -/

theorem filter_append_singleton_of_forall {α : Type} (l : List α) (x : α) (p : α → Bool)
    (hl : ∀ y ∈ l, p y = true) (hx : p x = false) :
    (l ++ [x]).filter p = l := by
  rw [List.filter_append]
  simp [hx, List.filter_eq_self.mpr hl]

theorem find?_append_of_none {α : Type} (l1 l2 : List α) (p : α → Bool)
    (h : l1.find? p = none) : (l1 ++ l2).find? p = l2.find? p := by
  induction l1 with
  | nil => simp
  | cons a l ih =>
    rw [List.find?_cons] at h
    cases hpa : p a with
    | true => rw [hpa] at h; exact absurd h (by simp)
    | false =>
      rw [hpa] at h
      rw [List.cons_append, List.find?_cons, hpa]
      exact ih h

theorem tableColumn_eta_primary (c : TableColumn) (h : c.isPrimary = false) :
    { c with isPrimary := false } = c := by
  cases c
  simp_all

/-- Claim C1: for the MySQL runner, replaying the generated down statements (the
memorized list is consumed in reverse) immediately after the up statements of
addColumn restores the pre-operation Table model exactly, including the incidentally
created unique index and its logical unique-constraint entry; the cache entry
installed by addColumn coincides with the replayed up state; and the same round trip
holds for the subsequent dropColumn of that column.  Hypotheses: the new column is a
non-primary unique column whose name is fresh, no single-column index on it exists
yet, and the naming-strategy identifier for it is unused. -/
theorem mysql_addColumn_dropColumn_up_down_roundtrip
    (t : Table) (c : TableColumn)
    (hprim : c.isPrimary = false)
    (huniq : c.isUnique = true)
    (hfreshcol : ∀ col ∈ t.columns, (col.name != c.name) = true)
    (hnoidx : ∀ idx ∈ t.indices,
      (idx.columnNames.length == 1 && idx.columnNames.head? == some c.name) = false)
    (hidxname : ∀ idx ∈ t.indices, (idx.name != indexName t.name [c.name]) = true)
    (huqname : ∀ u ∈ t.uniques, (u.name != indexName t.name [c.name]) = true) :
    replay ((mysqlAddColumn t c).upQueries ++ ((mysqlAddColumn t c).downQueries).reverse) t = t
    ∧ (mysqlAddColumn t c).cachedTable = replay (mysqlAddColumn t c).upQueries t
    ∧ replay ((mysqlDropColumn (mysqlAddColumn t c).cachedTable c).upQueries
        ++ ((mysqlDropColumn (mysqlAddColumn t c).cachedTable c).downQueries).reverse)
        (mysqlAddColumn t c).cachedTable
      = (mysqlAddColumn t c).cachedTable := by
  have hfind : t.indices.find? (fun idx =>
      idx.columnNames.length == 1 && idx.columnNames.head? == some c.name) = none :=
    List.find?_eq_none.mpr (fun x hx => by simp [hnoidx x hx])
  have haddEq : mysqlAddColumn t c =
      { upQueries := [.addColumn c (!t.primaryColumns.isEmpty),
          .addUniqueIndex (indexName t.name [c.name]) c.name],
        downQueries := [.dropColumn c.name, .dropIndex (indexName t.name [c.name])],
        cachedTable :=
          { t with
            indices := t.indices ++
              [{ name := indexName t.name [c.name], columnNames := [c.name], isUnique := true }],
            uniques := t.uniques ++
              [{ name := indexName t.name [c.name], columnNames := [c.name] }],
            columns := t.columns ++ [c] },
        originalAfter := t } := by
    simp [mysqlAddColumn, hprim, hfind, huniq, Table.addColumn]
  have hfiltIdx : (t.indices ++
        [{ name := indexName t.name [c.name], columnNames := [c.name],
           isUnique := true : TableIndex }]).filter
      (fun i => i.name != indexName t.name [c.name]) = t.indices :=
    filter_append_singleton_of_forall _ _ _ hidxname (by simp)
  have hfiltUq : (t.uniques ++
        [{ name := indexName t.name [c.name], columnNames := [c.name] : TableUnique }]).filter
      (fun u => u.name != indexName t.name [c.name]) = t.uniques :=
    filter_append_singleton_of_forall _ _ _ huqname (by simp)
  have hfiltCol : (t.columns ++ [c]).filter (fun x => x.name != c.name) = t.columns :=
    filter_append_singleton_of_forall _ _ _ hfreshcol (by simp)
  have hcol : ∀ s : Bool, ({ c with isPrimary := c.isPrimary && !s } : TableColumn) = c := by
    intro s
    rw [hprim, Bool.false_and]
    exact tableColumn_eta_primary c hprim
  refine ⟨?_, ?_, ?_⟩
  · rw [haddEq]
    simp only [replay, List.foldl, List.reverse, List.reverseAux, mysqlApplyStmt, hcol]
    simp [hfiltIdx, hfiltUq, hfiltCol]
  · rw [haddEq]
    simp only [replay, List.foldl, mysqlApplyStmt, hcol]
  · rw [haddEq]
    have hfind2 : ((t.indices ++
        [{ name := indexName t.name [c.name], columnNames := [c.name],
           isUnique := true : TableIndex }]).find? (fun idx =>
      idx.columnNames.length == 1 && idx.columnNames.head? == some c.name)) =
        some { name := indexName t.name [c.name], columnNames := [c.name], isUnique := true } := by
      rw [find?_append_of_none _ _ _ hfind]
      simp
    simp only [mysqlDropColumn, hprim, Bool.false_eq_true, if_false, hfind2]
    simp only [replay, List.foldl, List.reverse, List.reverseAux, mysqlApplyStmt, hcol]
    simp [hfiltIdx, hfiltUq, hfiltCol]

/-- The baseline table of the specification's example: t(id int primary key,
name varchar(50)). -/
def c1Table : Table :=
  { name := "t",
    columns := [{ name := "id", type := "int", isPrimary := true },
                { name := "name", type := "varchar", length := "50" }] }

/-- The unique email column of the specification's example. -/
def c1Email : TableColumn :=
  { name := "email", type := "varchar", length := "255", isUnique := true }

/-- Witness for C1 at the specification's example. -/
theorem mysql_addColumn_dropColumn_up_down_roundtrip_witness :
    TableColumn.isPrimary c1Email = false
    ∧ replay ((mysqlAddColumn c1Table c1Email).upQueries
        ++ ((mysqlAddColumn c1Table c1Email).downQueries).reverse) c1Table = c1Table :=
  ⟨rfl, (mysql_addColumn_dropColumn_up_down_roundtrip c1Table c1Email rfl rfl
      (by decide) (by decide) (by decide) (by decide)).1⟩

/-! ### C8: identity attribute stripped around primary-key changes -/

/-- The dialect invariant the claim is about: every increment-generated column is
covered by the primary key. -/
def identityCovered (t : Table) : Bool :=
  t.columns.all (fun c => !(isIncrementGenerated c) || c.isPrimary)

/-- No column of the table is increment-generated. -/
def noIncrementGenerated (t : Table) : Bool :=
  t.columns.all (fun c => !(isIncrementGenerated c))

/-- Every increment-generated column of the table is named n. -/
def genOnlyAt (t : Table) (n : String) : Bool :=
  t.columns.all (fun c => !(isIncrementGenerated c) || c.name == n)

theorem identityCovered_of_noGen (t : Table) (h : noIncrementGenerated t = true) :
    identityCovered t = true := by
  simp only [noIncrementGenerated, identityCovered, List.all_eq_true] at h ⊢
  intro c hc
  simp [h c hc]

theorem genOnlyAt_of_noGen (t : Table) (n : String) (h : noIncrementGenerated t = true) :
    genOnlyAt t n = true := by
  simp only [noIncrementGenerated, genOnlyAt, List.all_eq_true] at h ⊢
  intro c hc
  simp [h c hc]

theorem noGen_dropPrimaryKey (t : Table) (h : noIncrementGenerated t = true) :
    noIncrementGenerated (mysqlApplyStmt t .dropPrimaryKey) = true := by
  simp only [noIncrementGenerated, mysqlApplyStmt, List.all_map, List.all_eq_true] at h ⊢
  intro c hc
  exact h c hc

theorem noGen_addPrimaryKey (t : Table) (colsList : List String)
    (h : noIncrementGenerated t = true) :
    noIncrementGenerated (mysqlApplyStmt t (.addPrimaryKey colsList)) = true := by
  simp only [noIncrementGenerated, mysqlApplyStmt, List.all_map, List.all_eq_true] at h ⊢
  intro c hc
  exact h c hc

theorem genOnlyAt_dropPrimaryKey (t : Table) (n : String) (h : genOnlyAt t n = true) :
    genOnlyAt (mysqlApplyStmt t .dropPrimaryKey) n = true := by
  simp only [genOnlyAt, mysqlApplyStmt, List.all_map, List.all_eq_true] at h ⊢
  intro c hc
  exact h c hc

theorem genOnlyAt_addPrimaryKey (t : Table) (n : String) (colsList : List String)
    (h : genOnlyAt t n = true) :
    genOnlyAt (mysqlApplyStmt t (.addPrimaryKey colsList)) n = true := by
  simp only [genOnlyAt, mysqlApplyStmt, List.all_map, List.all_eq_true] at h ⊢
  intro c hc
  exact h c hc

theorem genOnlyAt_changeColumn (t : Table) (n : String) (d : TableColumn)
    (hd : d.name = n) (h : genOnlyAt t n = true) :
    genOnlyAt (mysqlApplyStmt t (.changeColumn n d)) n = true := by
  simp only [genOnlyAt, mysqlApplyStmt, List.all_map, List.all_eq_true] at h ⊢
  intro c hc
  by_cases hcn : (c.name == n) = true
  · simp [Function.comp, hcn, hd]
  · have hf : (c.name == n) = false := by simpa using hcn
    have h2 := h c hc
    rw [hf, Bool.or_false] at h2
    simp [Function.comp, hf, h2]

theorem noGen_strip (t : Table) (n : String) (g : TableColumn) (h : genOnlyAt t n = true) :
    noIncrementGenerated (mysqlApplyStmt t (.changeColumn n (nonGenerated g))) = true := by
  simp only [genOnlyAt, noIncrementGenerated, mysqlApplyStmt, List.all_map,
    List.all_eq_true] at h ⊢
  intro c hc
  by_cases hcn : (c.name == n) = true
  · simp [Function.comp, hcn, isIncrementGenerated, nonGenerated]
  · simp only [Function.comp, hcn, Bool.false_eq_true, if_false]
    have := h c hc
    simp only [hcn, Bool.or_false] at this
    simpa using this

theorem addPrimaryKey_covers (t : Table) (colsList : List String) (n : String)
    (hn : colsList.contains n = true) :
    ∀ c ∈ (mysqlApplyStmt t (.addPrimaryKey colsList)).columns,
      (c.name == n) = true → c.isPrimary = true := by
  simp only [mysqlApplyStmt, List.mem_map]
  rintro c ⟨c0, hc0, rfl⟩ hname
  simp only at hname ⊢
  have hcc : colsList.contains c0.name = true := by
    have : c0.name = n := by simpa using hname
    rw [this]; exact hn
  simp only [Bool.or_eq_true]
  exact Or.inr (by simpa using hcc)

theorem identityCovered_unstrip (t : Table) (n : String) (g : TableColumn)
    (hp : ∀ c ∈ t.columns, (c.name == n) = true → c.isPrimary = true)
    (hng : noIncrementGenerated t = true) :
    identityCovered (mysqlApplyStmt t (.changeColumn n g)) = true := by
  simp only [noIncrementGenerated, identityCovered, mysqlApplyStmt, List.all_map,
    List.all_eq_true] at hng ⊢
  intro c hc
  by_cases hcn : (c.name == n) = true
  · simp [Function.comp, hcn, hp c hc hcn]
  · simp only [Function.comp, hcn, Bool.false_eq_true, if_false]
    have := hng c hc
    simp [this]

/-- Claim C8: in the up statement list generated by updatePrimaryKeys on the MySQL
runner, AUTO_INCREMENT is stripped before the primary key is dropped/recreated and
restored only as the final statement, and likewise for the memorized down list
(consumed in reverse): no intermediate replay state has an increment-generated column
without a covering primary key.  Hypotheses: the initial table satisfies the dialect
invariant and has at most one increment-generated column (MySQL's own restriction). -/
theorem mysql_updatePrimaryKeys_identity_always_covered
    (t : Table) (cols : List TableColumn)
    (hInv : identityCovered t = true)
    (hOne : ∀ x ∈ t.columns, ∀ y ∈ t.columns,
      isIncrementGenerated x = true → isIncrementGenerated y = true → x.name = y.name) :
    (∀ k, k < (mysqlUpdatePrimaryKeys t cols).upQueries.length →
      identityCovered (replay ((mysqlUpdatePrimaryKeys t cols).upQueries.take k) t) = true)
    ∧ (∀ k, 1 ≤ k → k ≤ (mysqlUpdatePrimaryKeys t cols).downQueries.length →
      identityCovered
        (replay ((((mysqlUpdatePrimaryKeys t cols).downQueries).reverse).take k)
          (replay (mysqlUpdatePrimaryKeys t cols).upQueries t)) = true) := by
  cases hg : t.columns.find? isIncrementGenerated with
  | some g =>
    have hgmem : g ∈ t.columns := List.mem_of_find?_eq_some hg
    have hginc : isIncrementGenerated g = true := List.find?_some hg
    have hgp : g.isPrimary = true := by
      have := (List.all_eq_true.mp hInv) g hgmem
      simpa [hginc] using this
    have hpk : t.primaryColumns.isEmpty = false := by
      have hmem : g ∈ t.primaryColumns := List.mem_filter.mpr ⟨hgmem, hgp⟩
      cases hpc : t.primaryColumns with
      | nil => rw [hpc] at hmem; simp at hmem
      | cons a l => simp
    have hGenOnly : genOnlyAt t g.name = true := by
      simp only [genOnlyAt, List.all_eq_true]
      intro c hc
      by_cases hcg : isIncrementGenerated c = true
      · simp [hOne c hc g hgmem hcg hginc]
      · rw [Bool.not_eq_true] at hcg
        simp [hcg]
    have hup : (mysqlUpdatePrimaryKeys t cols).upQueries =
        [.changeColumn g.name (nonGenerated g), .dropPrimaryKey,
         .addPrimaryKey (cols.map (·.name)), .changeColumn g.name g] := by
      simp [mysqlUpdatePrimaryKeys, hg, hpk, nonGenerated]
    have hdown : (mysqlUpdatePrimaryKeys t cols).downQueries =
        [.changeColumn g.name g, .addPrimaryKey (t.primaryColumns.map (·.name)),
         .dropPrimaryKey, .changeColumn g.name (nonGenerated g)] := by
      simp [mysqlUpdatePrimaryKeys, hg, hpk, nonGenerated]
    constructor
    · intro k hk
      rw [hup] at hk ⊢
      simp only [List.length_cons, List.length_nil] at hk
      interval_cases k
      · simpa [replay] using hInv
      · simp only [List.take, replay, List.foldl]
        exact identityCovered_of_noGen _ (noGen_strip t g.name g hGenOnly)
      · simp only [List.take, replay, List.foldl]
        exact identityCovered_of_noGen _
          (noGen_dropPrimaryKey _ (noGen_strip t g.name g hGenOnly))
      · simp only [List.take, replay, List.foldl]
        exact identityCovered_of_noGen _
          (noGen_addPrimaryKey _ _ (noGen_dropPrimaryKey _ (noGen_strip t g.name g hGenOnly)))
    · intro k hk1 hk2
      rw [hdown] at hk2 ⊢
      rw [hup]
      simp only [List.length_cons, List.length_nil] at hk2
      have hSgen : genOnlyAt (replay [MysqlStmt.changeColumn g.name (nonGenerated g),
          .dropPrimaryKey, .addPrimaryKey (cols.map (·.name)),
          .changeColumn g.name g] t) g.name = true := by
        simp only [replay, List.foldl]
        exact genOnlyAt_changeColumn _ _ _ rfl
          (genOnlyAt_addPrimaryKey _ _ _
            (genOnlyAt_dropPrimaryKey _ _
              (genOnlyAt_changeColumn _ _ _ rfl hGenOnly)))
      have hn : (t.primaryColumns.map (·.name)).contains g.name = true := by
        have hmem : g.name ∈ t.primaryColumns.map (·.name) :=
          List.mem_map_of_mem _ (List.mem_filter.mpr ⟨hgmem, hgp⟩)
        simpa using hmem
      interval_cases k
      · simp only [List.reverse_cons, List.reverse_nil, List.nil_append,
          List.cons_append, List.take, replay, List.foldl]
        exact identityCovered_of_noGen _ (noGen_strip _ g.name g hSgen)
      · simp only [List.reverse_cons, List.reverse_nil, List.nil_append,
          List.cons_append, List.take, replay, List.foldl]
        exact identityCovered_of_noGen _
          (noGen_dropPrimaryKey _ (noGen_strip _ g.name g hSgen))
      · simp only [List.reverse_cons, List.reverse_nil, List.nil_append,
          List.cons_append, List.take, replay, List.foldl]
        exact identityCovered_of_noGen _
          (noGen_addPrimaryKey _ _ (noGen_dropPrimaryKey _ (noGen_strip _ g.name g hSgen)))
      · simp only [List.reverse_cons, List.reverse_nil, List.nil_append,
          List.cons_append, List.take, replay, List.foldl]
        refine identityCovered_unstrip _ g.name g ?_ ?_
        · exact addPrimaryKey_covers _ _ _ hn
        · exact noGen_addPrimaryKey _ _ (noGen_dropPrimaryKey _ (noGen_strip _ g.name g hSgen))
  | none =>
    have hnoGen : noIncrementGenerated t = true := by
      simp only [noIncrementGenerated, List.all_eq_true]
      intro c hc
      have := List.find?_eq_none.mp hg c hc
      simpa using this
    cases hng : cols.find? isIncrementGenerated with
    | some ng =>
      by_cases hpk : t.primaryColumns.isEmpty = true
      · have hup : (mysqlUpdatePrimaryKeys t cols).upQueries =
            [.addPrimaryKey (cols.map (·.name)), .changeColumn ng.name ng] := by
          simp [mysqlUpdatePrimaryKeys, hg, hng, hpk, nonGenerated]
        have hdown : (mysqlUpdatePrimaryKeys t cols).downQueries =
            [.dropPrimaryKey, .changeColumn ng.name (nonGenerated ng)] := by
          simp [mysqlUpdatePrimaryKeys, hg, hng, hpk, nonGenerated]
        have hSgen : genOnlyAt (replay [MysqlStmt.addPrimaryKey (cols.map (·.name)),
            .changeColumn ng.name ng] t) ng.name = true := by
          simp only [replay, List.foldl]
          exact genOnlyAt_changeColumn _ _ _ rfl
            (genOnlyAt_addPrimaryKey _ _ _ (genOnlyAt_of_noGen t ng.name hnoGen))
        constructor
        · intro k hk
          rw [hup] at hk ⊢
          simp only [List.length_cons, List.length_nil] at hk
          interval_cases k
          · simpa [replay] using hInv
          · simp only [List.take, replay, List.foldl]
            exact identityCovered_of_noGen _ (noGen_addPrimaryKey _ _ hnoGen)
        · intro k hk1 hk2
          rw [hdown] at hk2 ⊢
          rw [hup]
          simp only [List.length_cons, List.length_nil] at hk2
          interval_cases k
          · simp only [List.reverse_cons, List.reverse_nil, List.nil_append,
              List.cons_append, List.take, replay, List.foldl]
            exact identityCovered_of_noGen _ (noGen_strip _ ng.name ng hSgen)
          · simp only [List.reverse_cons, List.reverse_nil, List.nil_append,
              List.cons_append, List.take, replay, List.foldl]
            exact identityCovered_of_noGen _
              (noGen_dropPrimaryKey _ (noGen_strip _ ng.name ng hSgen))
      · have hpk2 : t.primaryColumns.isEmpty = false := by
          simpa using hpk
        have hup : (mysqlUpdatePrimaryKeys t cols).upQueries =
            [.dropPrimaryKey, .addPrimaryKey (cols.map (·.name)),
             .changeColumn ng.name ng] := by
          simp [mysqlUpdatePrimaryKeys, hg, hng, hpk2, nonGenerated]
        have hdown : (mysqlUpdatePrimaryKeys t cols).downQueries =
            [.addPrimaryKey (t.primaryColumns.map (·.name)), .dropPrimaryKey,
             .changeColumn ng.name (nonGenerated ng)] := by
          simp [mysqlUpdatePrimaryKeys, hg, hng, hpk2, nonGenerated]
        have hSgen : genOnlyAt (replay [MysqlStmt.dropPrimaryKey,
            .addPrimaryKey (cols.map (·.name)), .changeColumn ng.name ng] t) ng.name = true := by
          simp only [replay, List.foldl]
          exact genOnlyAt_changeColumn _ _ _ rfl
            (genOnlyAt_addPrimaryKey _ _ _
              (genOnlyAt_dropPrimaryKey _ _ (genOnlyAt_of_noGen t ng.name hnoGen)))
        constructor
        · intro k hk
          rw [hup] at hk ⊢
          simp only [List.length_cons, List.length_nil] at hk
          interval_cases k
          · simpa [replay] using hInv
          · simp only [List.take, replay, List.foldl]
            exact identityCovered_of_noGen _ (noGen_dropPrimaryKey _ hnoGen)
          · simp only [List.take, replay, List.foldl]
            exact identityCovered_of_noGen _
              (noGen_addPrimaryKey _ _ (noGen_dropPrimaryKey _ hnoGen))
        · intro k hk1 hk2
          rw [hdown] at hk2 ⊢
          rw [hup]
          simp only [List.length_cons, List.length_nil] at hk2
          interval_cases k
          · simp only [List.reverse_cons, List.reverse_nil, List.nil_append,
              List.cons_append, List.take, replay, List.foldl]
            exact identityCovered_of_noGen _ (noGen_strip _ ng.name ng hSgen)
          · simp only [List.reverse_cons, List.reverse_nil, List.nil_append,
              List.cons_append, List.take, replay, List.foldl]
            exact identityCovered_of_noGen _
              (noGen_dropPrimaryKey _ (noGen_strip _ ng.name ng hSgen))
          · simp only [List.reverse_cons, List.reverse_nil, List.nil_append,
              List.cons_append, List.take, replay, List.foldl]
            exact identityCovered_of_noGen _
              (noGen_addPrimaryKey _ _
                (noGen_dropPrimaryKey _ (noGen_strip _ ng.name ng hSgen)))
    | none =>
      by_cases hpk : t.primaryColumns.isEmpty = true
      · have hup : (mysqlUpdatePrimaryKeys t cols).upQueries =
            [.addPrimaryKey (cols.map (·.name))] := by
          simp [mysqlUpdatePrimaryKeys, hg, hng, hpk, nonGenerated]
        have hdown : (mysqlUpdatePrimaryKeys t cols).downQueries = [.dropPrimaryKey] := by
          simp [mysqlUpdatePrimaryKeys, hg, hng, hpk, nonGenerated]
        constructor
        · intro k hk
          rw [hup] at hk ⊢
          simp only [List.length_cons, List.length_nil] at hk
          interval_cases k
          · simpa [replay] using hInv
        · intro k hk1 hk2
          rw [hdown] at hk2 ⊢
          rw [hup]
          simp only [List.length_cons, List.length_nil] at hk2
          interval_cases k
          · simp only [List.reverse_cons, List.reverse_nil, List.nil_append,
              List.take, replay, List.foldl]
            exact identityCovered_of_noGen _
              (noGen_dropPrimaryKey _ (noGen_addPrimaryKey _ _ hnoGen))
      · have hpk2 : t.primaryColumns.isEmpty = false := by
          simpa using hpk
        have hup : (mysqlUpdatePrimaryKeys t cols).upQueries =
            [.dropPrimaryKey, .addPrimaryKey (cols.map (·.name))] := by
          simp [mysqlUpdatePrimaryKeys, hg, hng, hpk2, nonGenerated]
        have hdown : (mysqlUpdatePrimaryKeys t cols).downQueries =
            [.addPrimaryKey (t.primaryColumns.map (·.name)), .dropPrimaryKey] := by
          simp [mysqlUpdatePrimaryKeys, hg, hng, hpk2, nonGenerated]
        constructor
        · intro k hk
          rw [hup] at hk ⊢
          simp only [List.length_cons, List.length_nil] at hk
          interval_cases k
          · simpa [replay] using hInv
          · simp only [List.take, replay, List.foldl]
            exact identityCovered_of_noGen _ (noGen_dropPrimaryKey _ hnoGen)
        · intro k hk1 hk2
          rw [hdown] at hk2 ⊢
          rw [hup]
          simp only [List.length_cons, List.length_nil] at hk2
          interval_cases k
          · simp only [List.reverse_cons, List.reverse_nil, List.nil_append,
              List.cons_append, List.take, replay, List.foldl]
            exact identityCovered_of_noGen _
              (noGen_dropPrimaryKey _
                (noGen_addPrimaryKey _ _ (noGen_dropPrimaryKey _ hnoGen)))
          · simp only [List.reverse_cons, List.reverse_nil, List.nil_append,
              List.cons_append, List.take, replay, List.foldl]
            exact identityCovered_of_noGen _
              (noGen_addPrimaryKey _ _
                (noGen_dropPrimaryKey _
                  (noGen_addPrimaryKey _ _ (noGen_dropPrimaryKey _ hnoGen))))

/-- The concrete table of the specification's scenario: an increment-generated
primary id column and a plain code column; the primary key is then moved to code. -/
def c8Table : Table :=
  { name := "w",
    columns := [{ name := "id", type := "int", isPrimary := true, isGenerated := true,
                  generationStrategy := some "increment" },
                { name := "code", type := "int" }] }

/-- Witness for C8 at the concrete table, checking the state right after the
identity-stripping statement. -/
theorem mysql_updatePrimaryKeys_identity_always_covered_witness :
    identityCovered c8Table = true
    ∧ identityCovered (replay ((mysqlUpdatePrimaryKeys c8Table
        [{ name := "code", type := "int" }]).upQueries.take 1) c8Table) = true :=
  ⟨by decide,
   (mysql_updatePrimaryKeys_identity_always_covered c8Table
      [{ name := "code", type := "int" }] (by decide) (by decide)).1 1 (by decide)⟩

/-! ### C5: SQL Server queryResponsibilityChain ordering

SqlServerQueryRunner.query (SqlServerQueryRunner.ts lines 199-293) serializes
concurrently submitted queries through the queryResponsibilityChain array: a call
that finds the chain non-empty pushes a waiting placeholder and awaits a snapshot of
the chain before preparing its statement; the query promise is pushed when the
statement is prepared; on completion (success or failure alike) the call splices its
own two entries and resolves its placeholder.  A failed statement rejects its query
promise (fail at line 254, after resolveChain), so a later call whose awaited
snapshot contains that promise has its await Promise.all (line 208) reject: that
call re-throws the earlier error, never prepares its own statement, and never
resolves its own placeholder.  The asynchronous event loop is modelled as an
explicit small-step transition relation; each step is one of the synchronous blocks
of the source: the submission prologue (empty-chain and non-empty-chain cases), the
resumption after the awaited snapshot fulfills, the abort when it rejects, the
handing of the statement to the driver, and the completion callback. -/

namespace SqlServerChain

/-- The two kinds of entry the runner splices into the chain: the waiting placeholder
and the query promise. -/
inductive Marker where
  | waiting (task : Nat)
  | query (task : Nat)
  deriving DecidableEq, Repr

def Marker.task : Marker → Nat
  | .waiting i => i
  | .query i => i

/-- Lifecycle of one query() call.  aborted is the call whose await of the snapshot
rejected: it re-throws the earlier query's error before ever preparing its own
statement, and its placeholder is never resolved. -/
inductive TStatus where
  | notSubmitted
  | waitingFor (snapshot : List Marker)
  | readyToIssue
  | issued
  | completed (failed : Bool)
  | aborted
  deriving DecidableEq, Repr

structure ChainState where
  numTasks : Nat
  nextSubmit : Nat
  status : Nat → TStatus
  chain : List Marker
  driverLog : List Nat

/-- Pointwise status update. -/
def statusUpd (f : Nat → TStatus) (i : Nat) (st : TStatus) : Nat → TStatus :=
  fun j => if j = i then st else f j

theorem statusUpd_self (f : Nat → TStatus) (i : Nat) (st : TStatus) :
    statusUpd f i st i = st := by simp [statusUpd]

theorem statusUpd_ne (f : Nat → TStatus) (i : Nat) (st : TStatus) (j : Nat) (h : j ≠ i) :
    statusUpd f i st j = f j := by simp [statusUpd, h]

/-- The query's own promise has settled (completion callback ran, with err or not). -/
def done (s : ChainState) (i : Nat) : Prop :=
  ∃ b, s.status i = TStatus.completed b

/-- The statement has reached the driver (request.query was called). -/
def started (s : ChainState) (i : Nat) : Prop :=
  s.status i = TStatus.issued ∨ done s i

/-- A chain entry has fulfilled.  The waiting placeholder is fulfilled by
waitingOkay(), which resolveChain calls on both the success and the error path of
the completion callback — so it fulfills whenever the owner completed, failed or
not (but never if the owner was aborted).  The query promise fulfills only via
ok(...), i.e. on a successful completion; on error the callback calls
fail(new QueryFailedError(...)), which rejects it instead. -/
def fulfilled (s : ChainState) : Marker → Prop
  | .waiting i => ∃ b, s.status i = TStatus.completed b
  | .query i => s.status i = TStatus.completed false

/-- A chain entry has rejected: only a query promise can, and it does exactly when
its owner's statement failed. -/
def rejected (s : ChainState) : Marker → Prop
  | .waiting _ => False
  | .query i => s.status i = TStatus.completed true

/-- One synchronous block of SqlServerQueryRunner.query, as scheduled by the event
loop.  Submission order is fixed by task index. -/
inductive Step : ChainState → ChainState → Prop where
  /-- query() entered with an empty chain: no placeholder, the statement is prepared
  at once and the query promise is pushed before query() returns. -/
  | submitEmpty (s : ChainState) (i : Nat) :
      i = s.nextSubmit → i < s.numTasks → s.chain = [] →
      Step s (ChainState.mk s.numTasks (i + 1)
        (statusUpd s.status i .readyToIssue) (s.chain ++ [.query i]) s.driverLog)
  /-- query() entered with a non-empty chain: push the waiting placeholder and await
  a snapshot of all currently queued promises. -/
  | submitQueued (s : ChainState) (i : Nat) :
      i = s.nextSubmit → i < s.numTasks → s.chain ≠ [] →
      Step s (ChainState.mk s.numTasks (i + 1)
        (statusUpd s.status i (.waitingFor s.chain)) (s.chain ++ [.waiting i]) s.driverLog)
  /-- Promise.all over the snapshot fulfilled (every member fulfilled): the
  statement is prepared and the query promise is pushed. -/
  | wake (s : ChainState) (i : Nat) (snapshot : List Marker) :
      s.status i = .waitingFor snapshot →
      (∀ m ∈ snapshot, fulfilled s m) →
      Step s (ChainState.mk s.numTasks s.nextSubmit
        (statusUpd s.status i .readyToIssue) (s.chain ++ [.query i]) s.driverLog)
  /-- Promise.all over the snapshot rejected (some member rejected): the await at
  line 208 throws the earlier query's error; the call terminates without preparing
  its statement, and neither its placeholder nor anything else is removed from the
  chain (its own resolveChain never runs). -/
  | abortWake (s : ChainState) (i : Nat) (snapshot : List Marker) (m : Marker) :
      s.status i = .waitingFor snapshot →
      m ∈ snapshot →
      rejected s m →
      Step s (ChainState.mk s.numTasks s.nextSubmit
        (statusUpd s.status i .aborted) s.chain s.driverLog)
  /-- request.query hands the statement to the driver. -/
  | issue (s : ChainState) (i : Nat) :
      s.status i = .readyToIssue →
      Step s (ChainState.mk s.numTasks s.nextSubmit
        (statusUpd s.status i .issued) s.chain (s.driverLog ++ [i]))
  /-- The completion callback (error or success): splice the two own entries out of
  the chain and resolve the placeholder. -/
  | complete (s : ChainState) (i : Nat) (failed : Bool) :
      s.status i = .issued →
      Step s (ChainState.mk s.numTasks s.nextSubmit
        (statusUpd s.status i (.completed failed))
        (s.chain.filter (fun m => m ≠ .query i ∧ m ≠ .waiting i)) s.driverLog)

def initState (n : Nat) : ChainState :=
  { numTasks := n, nextSubmit := 0, status := fun _ => .notSubmitted,
    chain := [], driverLog := [] }

def Reachable (n : Nat) (s : ChainState) : Prop :=
  Relation.ReflTransGen Step (initState n) s

/-- done over a raw status assignment. -/
def doneF (f : Nat → TStatus) (i : Nat) : Prop :=
  ∃ b, f i = TStatus.completed b

/-- started over a raw status assignment. -/
def startedF (f : Nat → TStatus) (i : Nat) : Prop :=
  f i = TStatus.issued ∨ doneF f i

theorem doneF_upd_ne (f : Nat → TStatus) (i : Nat) (st : TStatus) (x : Nat) (hx : x ≠ i) :
    doneF (statusUpd f i st) x ↔ doneF f x := by
  unfold doneF
  rw [statusUpd_ne _ _ _ _ hx]

theorem startedF_upd_ne (f : Nat → TStatus) (i : Nat) (st : TStatus) (x : Nat) (hx : x ≠ i) :
    startedF (statusUpd f i st) x ↔ startedF f x := by
  unfold startedF
  rw [doneF_upd_ne _ _ _ _ hx, statusUpd_ne _ _ _ _ hx]

theorem not_doneF_of_eq {f : Nat → TStatus} {i : Nat} {st : TStatus}
    (h : f i = st) (hst : ∀ b, st ≠ .completed b) : ¬ doneF f i := by
  rintro ⟨b, hb⟩
  rw [h] at hb
  exact hst b hb

/-- The inductive invariant of the chain discipline, stated over the state
components: submission tracking, the ordering guarantee (a statement reaches the
driver only when every earlier submission has completed), readiness implies all
earlier submissions completed, every live submission keeps a marker in the chain, a
waiting snapshot covers every earlier live submission, and the driver log is sorted
in submission order and holds exactly the started tasks. -/
structure Inv (nextSubmit : Nat) (status : Nat → TStatus) (chain : List Marker)
    (driverLog : List Nat) : Prop where
  submitted_iff : ∀ i, i < nextSubmit ↔ status i ≠ .notSubmitted
  ordered : ∀ i, startedF status i → ∀ j, j < i → doneF status j
  ready_ordered : ∀ i, status i = .readyToIssue → ∀ j, j < i → doneF status j
  marker_present : ∀ i, i < nextSubmit → ¬ doneF status i →
    Marker.query i ∈ chain ∨ Marker.waiting i ∈ chain
  snapshot_covers : ∀ i snap, status i = .waitingFor snap → ∀ j, j < i →
    doneF status j ∨ Marker.query j ∈ snap ∨ Marker.waiting j ∈ snap
  log_sorted : driverLog.Pairwise (· < ·)
  log_iff : ∀ i, i ∈ driverLog ↔ startedF status i

def InvS (s : ChainState) : Prop :=
  Inv s.nextSubmit s.status s.chain s.driverLog

theorem inv_init (n : Nat) : InvS (initState n) := by
  refine ⟨?_, ?_, ?_, ?_, ?_, ?_, ?_⟩
  · intro i
    simp [initState]
  · rintro i (h1 | ⟨b, h1⟩) <;> simp [initState] at h1
  · intro i h1
    simp [initState] at h1
  · intro i h1
    simp [initState] at h1
  · intro i snap h1
    simp [initState] at h1
  · simp [initState]
  · intro i
    constructor
    · intro h1
      simp [initState] at h1
    · rintro (h1 | ⟨b, h1⟩) <;> simp [initState] at h1

theorem inv_submitEmpty (s : ChainState) (i : Nat)
    (hi : i = s.nextSubmit) (hchain : s.chain = []) (hs : InvS s) :
    Inv (i + 1) (statusUpd s.status i .readyToIssue) (s.chain ++ [.query i])
      s.driverLog := by
  obtain ⟨hA, hB, hC, hD, hE, hF, hG⟩ := hs
  have hnotsub : s.status i = .notSubmitted := by
    by_contra hne
    have h2 := (hA i).mpr hne
    rw [hi] at h2
    exact lt_irrefl _ h2
  have hDoneF : ¬ doneF s.status i := not_doneF_of_eq hnotsub (by intro b hb; cases hb)
  have hDoneAll : ∀ j, j < i → doneF s.status j := by
    intro j hj
    by_contra hnd
    have hm := hD j (by rw [← hi]; exact hj) hnd
    rw [hchain] at hm
    simp at hm
  refine ⟨?_, ?_, ?_, ?_, ?_, ?_, ?_⟩
  · intro x
    by_cases hx : x = i
    · subst hx
      rw [statusUpd_self]
      simp
    · rw [statusUpd_ne _ _ _ _ hx]
      constructor
      · intro h2
        exact (hA x).mp (by rw [← hi]; omega)
      · intro h2
        have h3 := (hA x).mpr h2
        rw [← hi] at h3
        omega
  · intro x hst j hj
    by_cases hx : x = i
    · subst hx
      rcases hst with h1 | ⟨b, h1⟩ <;> rw [statusUpd_self] at h1 <;> cases h1
    · have hst2 : startedF s.status x := (startedF_upd_ne _ _ _ _ hx).mp hst
      have hdj := hB x hst2 j hj
      by_cases hji : j = i
      · exact absurd (hji ▸ hdj) hDoneF
      · exact (doneF_upd_ne _ _ _ _ hji).mpr hdj
  · intro x hx2 j hj
    by_cases hx : x = i
    · subst hx
      have hdj := hDoneAll j hj
      by_cases hji : j = x
      · omega
      · exact (doneF_upd_ne _ _ _ _ hji).mpr hdj
    · rw [statusUpd_ne _ _ _ _ hx] at hx2
      have hdj := hC x hx2 j hj
      by_cases hji : j = i
      · exact absurd (hji ▸ hdj) hDoneF
      · exact (doneF_upd_ne _ _ _ _ hji).mpr hdj
  · intro x hx1 hx2
    by_cases hx : x = i
    · subst hx
      left
      simp
    · have hdx : doneF s.status x := hDoneAll x (by omega)
      exact absurd ((doneF_upd_ne _ _ _ _ hx).mpr hdx) hx2
  · intro x snap hx2 j hj
    by_cases hx : x = i
    · subst hx
      rw [statusUpd_self] at hx2
      cases hx2
    · rw [statusUpd_ne _ _ _ _ hx] at hx2
      rcases hE x snap hx2 j hj with hd | hm
      · by_cases hji : j = i
        · exact absurd (hji ▸ hd) hDoneF
        · exact Or.inl ((doneF_upd_ne _ _ _ _ hji).mpr hd)
      · exact Or.inr hm
  · exact hF
  · intro x
    rw [hG x]
    by_cases hx : x = i
    · subst hx
      constructor
      · rintro (h1 | ⟨b, h1⟩) <;> rw [hnotsub] at h1 <;> cases h1
      · rintro (h1 | ⟨b, h1⟩) <;> rw [statusUpd_self] at h1 <;> cases h1
    · exact (startedF_upd_ne _ _ _ _ hx).symm

theorem inv_submitQueued (s : ChainState) (i : Nat)
    (hi : i = s.nextSubmit) (hs : InvS s) :
    Inv (i + 1) (statusUpd s.status i (.waitingFor s.chain)) (s.chain ++ [.waiting i])
      s.driverLog := by
  obtain ⟨hA, hB, hC, hD, hE, hF, hG⟩ := hs
  have hnotsub : s.status i = .notSubmitted := by
    by_contra hne
    have h2 := (hA i).mpr hne
    rw [hi] at h2
    exact lt_irrefl _ h2
  have hDoneF : ¬ doneF s.status i := not_doneF_of_eq hnotsub (by intro b hb; cases hb)
  refine ⟨?_, ?_, ?_, ?_, ?_, ?_, ?_⟩
  · intro x
    by_cases hx : x = i
    · subst hx
      rw [statusUpd_self]
      simp
    · rw [statusUpd_ne _ _ _ _ hx]
      constructor
      · intro h2
        exact (hA x).mp (by rw [← hi]; omega)
      · intro h2
        have h3 := (hA x).mpr h2
        rw [← hi] at h3
        omega
  · intro x hst j hj
    by_cases hx : x = i
    · subst hx
      rcases hst with h1 | ⟨b, h1⟩ <;> rw [statusUpd_self] at h1 <;> cases h1
    · have hst2 : startedF s.status x := (startedF_upd_ne _ _ _ _ hx).mp hst
      have hdj := hB x hst2 j hj
      by_cases hji : j = i
      · exact absurd (hji ▸ hdj) hDoneF
      · exact (doneF_upd_ne _ _ _ _ hji).mpr hdj
  · intro x hx2 j hj
    by_cases hx : x = i
    · subst hx
      rw [statusUpd_self] at hx2
      cases hx2
    · rw [statusUpd_ne _ _ _ _ hx] at hx2
      have hdj := hC x hx2 j hj
      by_cases hji : j = i
      · exact absurd (hji ▸ hdj) hDoneF
      · exact (doneF_upd_ne _ _ _ _ hji).mpr hdj
  · intro x hx1 hx2
    by_cases hx : x = i
    · subst hx
      right
      simp
    · have hnd : ¬ doneF s.status x := fun hd =>
        hx2 ((doneF_upd_ne _ _ _ _ hx).mpr hd)
      rcases hD x (by rw [← hi]; omega) hnd with hm | hm
      · exact Or.inl (List.mem_append_left _ hm)
      · exact Or.inr (List.mem_append_left _ hm)
  · intro x snap hx2 j hj
    by_cases hx : x = i
    · subst hx
      rw [statusUpd_self] at hx2
      cases hx2
      by_cases hdj : doneF s.status j
      · by_cases hji : j = x
        · exact absurd (hji ▸ hdj) hDoneF
        · exact Or.inl ((doneF_upd_ne _ _ _ _ hji).mpr hdj)
      · rcases hD j (by rw [← hi]; omega) hdj with hm | hm
        · exact Or.inr (Or.inl hm)
        · exact Or.inr (Or.inr hm)
    · rw [statusUpd_ne _ _ _ _ hx] at hx2
      rcases hE x snap hx2 j hj with hd | hm
      · by_cases hji : j = i
        · exact absurd (hji ▸ hd) hDoneF
        · exact Or.inl ((doneF_upd_ne _ _ _ _ hji).mpr hd)
      · exact Or.inr hm
  · exact hF
  · intro x
    rw [hG x]
    by_cases hx : x = i
    · subst hx
      constructor
      · rintro (h1 | ⟨b, h1⟩) <;> rw [hnotsub] at h1 <;> cases h1
      · rintro (h1 | ⟨b, h1⟩) <;> rw [statusUpd_self] at h1 <;> cases h1
    · exact (startedF_upd_ne _ _ _ _ hx).symm

theorem inv_wake (s : ChainState) (i : Nat) (snapshot : List Marker)
    (hw : s.status i = .waitingFor snapshot)
    (hres : ∀ m ∈ snapshot, fulfilled s m) (hs : InvS s) :
    Inv s.nextSubmit (statusUpd s.status i .readyToIssue) (s.chain ++ [.query i])
      s.driverLog := by
  obtain ⟨hA, hB, hC, hD, hE, hF, hG⟩ := hs
  have hDoneF : ¬ doneF s.status i := not_doneF_of_eq hw (by intro b hb; cases hb)
  have hDoneAll : ∀ j, j < i → doneF s.status j := by
    intro j hj
    rcases hE i snapshot hw j hj with hd | hm | hm
    · exact hd
    · exact ⟨false, hres _ hm⟩
    · exact hres _ hm
  have hsub : i < s.nextSubmit := (hA i).mpr (by rw [hw]; intro h2; cases h2)
  refine ⟨?_, ?_, ?_, ?_, ?_, ?_, ?_⟩
  · intro x
    by_cases hx : x = i
    · subst hx
      rw [statusUpd_self]
      simpa using hsub
    · rw [statusUpd_ne _ _ _ _ hx]
      exact hA x
  · intro x hst j hj
    by_cases hx : x = i
    · subst hx
      rcases hst with h1 | ⟨b, h1⟩ <;> rw [statusUpd_self] at h1 <;> cases h1
    · have hst2 : startedF s.status x := (startedF_upd_ne _ _ _ _ hx).mp hst
      have hdj := hB x hst2 j hj
      by_cases hji : j = i
      · exact absurd (hji ▸ hdj) hDoneF
      · exact (doneF_upd_ne _ _ _ _ hji).mpr hdj
  · intro x hx2 j hj
    by_cases hx : x = i
    · subst hx
      have hdj := hDoneAll j hj
      by_cases hji : j = x
      · omega
      · exact (doneF_upd_ne _ _ _ _ hji).mpr hdj
    · rw [statusUpd_ne _ _ _ _ hx] at hx2
      have hdj := hC x hx2 j hj
      by_cases hji : j = i
      · exact absurd (hji ▸ hdj) hDoneF
      · exact (doneF_upd_ne _ _ _ _ hji).mpr hdj
  · intro x hx1 hx2
    by_cases hx : x = i
    · subst hx
      left
      simp
    · have hnd : ¬ doneF s.status x := fun hd =>
        hx2 ((doneF_upd_ne _ _ _ _ hx).mpr hd)
      rcases hD x hx1 hnd with hm | hm
      · exact Or.inl (List.mem_append_left _ hm)
      · exact Or.inr (List.mem_append_left _ hm)
  · intro x snap hx2 j hj
    by_cases hx : x = i
    · subst hx
      rw [statusUpd_self] at hx2
      cases hx2
    · rw [statusUpd_ne _ _ _ _ hx] at hx2
      rcases hE x snap hx2 j hj with hd | hm
      · by_cases hji : j = i
        · exact absurd (hji ▸ hd) hDoneF
        · exact Or.inl ((doneF_upd_ne _ _ _ _ hji).mpr hd)
      · exact Or.inr hm
  · exact hF
  · intro x
    rw [hG x]
    by_cases hx : x = i
    · subst hx
      constructor
      · rintro (h1 | ⟨b, h1⟩) <;> rw [hw] at h1 <;> cases h1
      · rintro (h1 | ⟨b, h1⟩) <;> rw [statusUpd_self] at h1 <;> cases h1
    · exact (startedF_upd_ne _ _ _ _ hx).symm

theorem inv_abortWake (s : ChainState) (i : Nat) (snapshot : List Marker)
    (hw : s.status i = .waitingFor snapshot) (hs : InvS s) :
    Inv s.nextSubmit (statusUpd s.status i .aborted) s.chain s.driverLog := by
  obtain ⟨hA, hB, hC, hD, hE, hF, hG⟩ := hs
  have hDoneF : ¬ doneF s.status i := not_doneF_of_eq hw (by intro b hb; cases hb)
  have hsub : i < s.nextSubmit := (hA i).mpr (by rw [hw]; intro h2; cases h2)
  refine ⟨?_, ?_, ?_, ?_, ?_, ?_, ?_⟩
  · intro x
    by_cases hx : x = i
    · subst hx
      rw [statusUpd_self]
      simpa using hsub
    · rw [statusUpd_ne _ _ _ _ hx]
      exact hA x
  · intro x hst j hj
    by_cases hx : x = i
    · subst hx
      rcases hst with h1 | ⟨b, h1⟩ <;> rw [statusUpd_self] at h1 <;> cases h1
    · have hst2 : startedF s.status x := (startedF_upd_ne _ _ _ _ hx).mp hst
      have hdj := hB x hst2 j hj
      by_cases hji : j = i
      · exact absurd (hji ▸ hdj) hDoneF
      · exact (doneF_upd_ne _ _ _ _ hji).mpr hdj
  · intro x hx2 j hj
    by_cases hx : x = i
    · subst hx
      rw [statusUpd_self] at hx2
      cases hx2
    · rw [statusUpd_ne _ _ _ _ hx] at hx2
      have hdj := hC x hx2 j hj
      by_cases hji : j = i
      · exact absurd (hji ▸ hdj) hDoneF
      · exact (doneF_upd_ne _ _ _ _ hji).mpr hdj
  · intro x hx1 hx2
    by_cases hx : x = i
    · subst hx
      exact hD x hx1 hDoneF
    · exact hD x hx1 (fun hd => hx2 ((doneF_upd_ne _ _ _ _ hx).mpr hd))
  · intro x snap hx2 j hj
    by_cases hx : x = i
    · subst hx
      rw [statusUpd_self] at hx2
      cases hx2
    · rw [statusUpd_ne _ _ _ _ hx] at hx2
      rcases hE x snap hx2 j hj with hd | hm
      · by_cases hji : j = i
        · exact absurd (hji ▸ hd) hDoneF
        · exact Or.inl ((doneF_upd_ne _ _ _ _ hji).mpr hd)
      · exact Or.inr hm
  · exact hF
  · intro x
    rw [hG x]
    by_cases hx : x = i
    · subst hx
      constructor
      · rintro (h1 | ⟨b, h1⟩) <;> rw [hw] at h1 <;> cases h1
      · rintro (h1 | ⟨b, h1⟩) <;> rw [statusUpd_self] at h1 <;> cases h1
    · exact (startedF_upd_ne _ _ _ _ hx).symm

theorem inv_issue (s : ChainState) (i : Nat)
    (hr : s.status i = .readyToIssue) (hs : InvS s) :
    Inv s.nextSubmit (statusUpd s.status i .issued) s.chain (s.driverLog ++ [i]) := by
  obtain ⟨hA, hB, hC, hD, hE, hF, hG⟩ := hs
  have hDoneF : ¬ doneF s.status i := not_doneF_of_eq hr (by intro b hb; cases hb)
  have hDoneAll : ∀ j, j < i → doneF s.status j := hC i hr
  have hNotStarted : ¬ startedF s.status i := by
    rintro (h1 | ⟨b, h1⟩) <;> rw [hr] at h1 <;> cases h1
  have hsub : i < s.nextSubmit := (hA i).mpr (by rw [hr]; intro h2; cases h2)
  have hltAll : ∀ x ∈ s.driverLog, x < i := by
    intro x hxm
    have hst := (hG x).mp hxm
    rcases Nat.lt_trichotomy x i with h1 | h1 | h1
    · exact h1
    · exact absurd (h1 ▸ hst) hNotStarted
    · exact absurd (hB x hst i h1) hDoneF
  refine ⟨?_, ?_, ?_, ?_, ?_, ?_, ?_⟩
  · intro x
    by_cases hx : x = i
    · subst hx
      rw [statusUpd_self]
      simpa using hsub
    · rw [statusUpd_ne _ _ _ _ hx]
      exact hA x
  · intro x hst j hj
    by_cases hx : x = i
    · subst hx
      have hdj := hDoneAll j hj
      by_cases hji : j = x
      · omega
      · exact (doneF_upd_ne _ _ _ _ hji).mpr hdj
    · have hst2 : startedF s.status x := (startedF_upd_ne _ _ _ _ hx).mp hst
      have hdj := hB x hst2 j hj
      by_cases hji : j = i
      · exact absurd (hji ▸ hdj) hDoneF
      · exact (doneF_upd_ne _ _ _ _ hji).mpr hdj
  · intro x hx2 j hj
    by_cases hx : x = i
    · subst hx
      rw [statusUpd_self] at hx2
      cases hx2
    · rw [statusUpd_ne _ _ _ _ hx] at hx2
      have hdj := hC x hx2 j hj
      by_cases hji : j = i
      · exact absurd (hji ▸ hdj) hDoneF
      · exact (doneF_upd_ne _ _ _ _ hji).mpr hdj
  · intro x hx1 hx2
    by_cases hx : x = i
    · subst hx
      exact hD x hx1 hDoneF
    · exact hD x hx1 (fun hd => hx2 ((doneF_upd_ne _ _ _ _ hx).mpr hd))
  · intro x snap hx2 j hj
    by_cases hx : x = i
    · subst hx
      rw [statusUpd_self] at hx2
      cases hx2
    · rw [statusUpd_ne _ _ _ _ hx] at hx2
      rcases hE x snap hx2 j hj with hd | hm
      · by_cases hji : j = i
        · exact absurd (hji ▸ hd) hDoneF
        · exact Or.inl ((doneF_upd_ne _ _ _ _ hji).mpr hd)
      · exact Or.inr hm
  · refine List.pairwise_append.mpr ⟨hF, List.pairwise_singleton _ _, ?_⟩
    intro a ha b hb
    rw [List.mem_singleton] at hb
    subst hb
    exact hltAll a ha
  · intro x
    rw [List.mem_append, List.mem_singleton]
    by_cases hx : x = i
    · subst hx
      constructor
      · intro _
        exact Or.inl (statusUpd_self _ _ _)
      · intro _
        exact Or.inr rfl
    · constructor
      · rintro (hm | hm)
        · exact (startedF_upd_ne _ _ _ _ hx).mpr ((hG x).mp hm)
        · exact absurd hm hx
      · intro hst
        exact Or.inl ((hG x).mpr ((startedF_upd_ne _ _ _ _ hx).mp hst))

theorem inv_complete (s : ChainState) (i : Nat) (failed : Bool)
    (hc : s.status i = .issued) (hs : InvS s) :
    Inv s.nextSubmit (statusUpd s.status i (.completed failed))
      (s.chain.filter (fun m => m ≠ .query i ∧ m ≠ .waiting i)) s.driverLog := by
  obtain ⟨hA, hB, hC, hD, hE, hF, hG⟩ := hs
  have hStartedF : startedF s.status i := Or.inl hc
  have hdone : doneF (statusUpd s.status i (.completed failed)) i :=
    ⟨failed, statusUpd_self _ _ _⟩
  refine ⟨?_, ?_, ?_, ?_, ?_, ?_, ?_⟩
  · intro x
    by_cases hx : x = i
    · subst hx
      rw [statusUpd_self]
      have hsub : x < s.nextSubmit := (hA x).mpr (by rw [hc]; intro h2; cases h2)
      simpa using hsub
    · rw [statusUpd_ne _ _ _ _ hx]
      exact hA x
  · intro x hst j hj
    by_cases hx : x = i
    · subst hx
      have hdj := hB x hStartedF j hj
      by_cases hji : j = x
      · omega
      · exact (doneF_upd_ne _ _ _ _ hji).mpr hdj
    · have hst2 : startedF s.status x := (startedF_upd_ne _ _ _ _ hx).mp hst
      have hdj := hB x hst2 j hj
      by_cases hji : j = i
      · exact hji ▸ hdone
      · exact (doneF_upd_ne _ _ _ _ hji).mpr hdj
  · intro x hx2 j hj
    by_cases hx : x = i
    · subst hx
      rw [statusUpd_self] at hx2
      cases hx2
    · rw [statusUpd_ne _ _ _ _ hx] at hx2
      have hdj := hC x hx2 j hj
      by_cases hji : j = i
      · exact hji ▸ hdone
      · exact (doneF_upd_ne _ _ _ _ hji).mpr hdj
  · intro x hx1 hx2
    by_cases hx : x = i
    · exact absurd (hx ▸ hdone) hx2
    · have hnd : ¬ doneF s.status x := fun hd =>
        hx2 ((doneF_upd_ne _ _ _ _ hx).mpr hd)
      rcases hD x hx1 hnd with hm | hm
      · refine Or.inl (List.mem_filter.mpr ⟨hm, ?_⟩)
        simp [hx]
      · refine Or.inr (List.mem_filter.mpr ⟨hm, ?_⟩)
        simp [hx]
  · intro x snap hx2 j hj
    by_cases hx : x = i
    · subst hx
      rw [statusUpd_self] at hx2
      cases hx2
    · rw [statusUpd_ne _ _ _ _ hx] at hx2
      rcases hE x snap hx2 j hj with hd | hm
      · by_cases hji : j = i
        · exact Or.inl (hji ▸ hdone)
        · exact Or.inl ((doneF_upd_ne _ _ _ _ hji).mpr hd)
      · exact Or.inr hm
  · exact hF
  · intro x
    rw [hG x]
    by_cases hx : x = i
    · subst hx
      constructor
      · intro _
        exact Or.inr hdone
      · intro _
        exact hStartedF
    · exact (startedF_upd_ne _ _ _ _ hx).symm

theorem inv_step {s t : ChainState} (hs : InvS s) (h : Step s t) : InvS t := by
  cases h with
  | submitEmpty i hi hlt hchain => exact inv_submitEmpty s i hi hchain hs
  | submitQueued i hi hlt hchain => exact inv_submitQueued s i hi hs
  | wake i snapshot hw hres => exact inv_wake s i snapshot hw hres hs
  | abortWake i snapshot m hw hm hrej => exact inv_abortWake s i snapshot hw hs
  | issue i hr => exact inv_issue s i hr hs
  | complete i failed hc => exact inv_complete s i failed hc hs

theorem inv_reachable (n : Nat) (s : ChainState) (h : Reachable n s) : InvS s := by
  induction h with
  | refl => exact inv_init n
  | tail _ hstep ih => exact inv_step ih hstep

end SqlServerChain

namespace SqlServerChain

/-- The invariant is preserved along any number of steps. -/
theorem invS_steps {s t : ChainState} (hs : InvS s)
    (h : Relation.ReflTransGen Step s t) : InvS t := by
  induction h with
  | refl => exact hs
  | tail _ hstep ih => exact inv_step ih hstep

/-- An aborted call stays aborted across any single step: every transition acts on
a slot whose status is notSubmitted (via submitted_iff), waitingFor, readyToIssue
or issued, none of which is aborted, so no step touches an aborted slot. -/
theorem aborted_step {s t : ChainState} (hs : InvS s) (h : Step s t) (i : Nat)
    (ha : s.status i = .aborted) : t.status i = .aborted := by
  obtain ⟨hA, _, _, _, _, _, _⟩ := hs
  cases h with
  | submitEmpty j hj hlt hchain =>
    show statusUpd s.status j TStatus.readyToIssue i = TStatus.aborted
    by_cases hij : i = j
    · exfalso
      have hsub : i < s.nextSubmit := (hA i).mpr (by rw [ha]; intro h2; cases h2)
      omega
    · rw [statusUpd_ne _ _ _ _ hij]
      exact ha
  | submitQueued j hj hlt hchain =>
    show statusUpd s.status j (TStatus.waitingFor s.chain) i = TStatus.aborted
    by_cases hij : i = j
    · exfalso
      have hsub : i < s.nextSubmit := (hA i).mpr (by rw [ha]; intro h2; cases h2)
      omega
    · rw [statusUpd_ne _ _ _ _ hij]
      exact ha
  | wake j snapshot hw hres =>
    show statusUpd s.status j TStatus.readyToIssue i = TStatus.aborted
    by_cases hij : i = j
    · subst hij
      rw [ha] at hw
      cases hw
    · rw [statusUpd_ne _ _ _ _ hij]
      exact ha
  | abortWake j snapshot m hw hm hrej =>
    show statusUpd s.status j TStatus.aborted i = TStatus.aborted
    by_cases hij : i = j
    · subst hij
      exact statusUpd_self _ _ _
    · rw [statusUpd_ne _ _ _ _ hij]
      exact ha
  | issue j hr =>
    show statusUpd s.status j TStatus.issued i = TStatus.aborted
    by_cases hij : i = j
    · subst hij
      rw [ha] at hr
      cases hr
    · rw [statusUpd_ne _ _ _ _ hij]
      exact ha
  | complete j failed hc =>
    show statusUpd s.status j (TStatus.completed failed) i = TStatus.aborted
    by_cases hij : i = j
    · subst hij
      rw [ha] at hc
      cases hc
    · rw [statusUpd_ne _ _ _ _ hij]
      exact ha

/-- Once aborted, a call is aborted in every continuation of the run. -/
theorem aborted_persists {s t : ChainState} (hs : InvS s)
    (h : Relation.ReflTransGen Step s t) (i : Nat) (ha : s.status i = .aborted) :
    t.status i = .aborted := by
  induction h with
  | refl => exact ha
  | tail hr hstep ih => exact aborted_step (invS_steps hs hr) hstep i ih

end SqlServerChain

/-- Claim C5 (amended): over every state reachable by the promise-chain protocol of
SqlServerQueryRunner.query, the driver log is strictly increasing in submission
order; a later call reaches the driver only after every earlier submitted call has
completed; every logged statement has all earlier submissions logged and completed;
and a call aborted by a rejected sibling promise (the await of the chain snapshot
re-throws the earlier QueryFailedError before the statement is prepared) is never
handed to the driver. -/
theorem sqlserver_query_chain_fifo
    (n : Nat) (s : SqlServerChain.ChainState) (h : SqlServerChain.Reachable n s) :
    s.driverLog.Pairwise (· < ·)
    ∧ (∀ i j, i < j → SqlServerChain.started s j → SqlServerChain.done s i)
    ∧ (∀ i j, i < j → j ∈ s.driverLog →
        i ∈ s.driverLog ∧ SqlServerChain.done s i)
    ∧ (∀ i, s.status i = SqlServerChain.TStatus.aborted → i ∉ s.driverLog) := by
  obtain ⟨hA, hB, hC, hD, hE, hF, hG⟩ := SqlServerChain.inv_reachable n s h
  refine ⟨hF, ?_, ?_, ?_⟩
  · intro i j hij hstj
    exact hB j hstj i hij
  · intro i j hij hmem
    have hstj : SqlServerChain.startedF s.status j := (hG j).mp hmem
    have hdi : SqlServerChain.doneF s.status i := hB j hstj i hij
    exact ⟨(hG i).mpr (Or.inr hdi), hdi⟩
  · intro i hab hmem
    have hst := (hG i).mp hmem
    rcases hst with h1 | ⟨b, h1⟩ <;> rw [hab] at h1 <;> cases h1

/-- First trace state: task 0 submitted on an empty chain, ready to issue. -/
def c5s1 : SqlServerChain.ChainState :=
  { numTasks := 2, nextSubmit := 1,
    status := SqlServerChain.statusUpd (SqlServerChain.initState 2).status 0 .readyToIssue,
    chain := [.query 0], driverLog := [] }

/-- Second trace state: task 1 submitted while the promise of task 0 is queued. -/
def c5s2 : SqlServerChain.ChainState :=
  { numTasks := 2, nextSubmit := 2,
    status := SqlServerChain.statusUpd c5s1.status 1 (.waitingFor [.query 0]),
    chain := [.query 0, .waiting 1], driverLog := [] }

/-- Third trace state: the statement of task 0 reaches the driver while task 1 waits. -/
def c5s3 : SqlServerChain.ChainState :=
  { numTasks := 2, nextSubmit := 2,
    status := SqlServerChain.statusUpd c5s2.status 0 .issued,
    chain := [.query 0, .waiting 1], driverLog := [0] }

theorem c5Reach : SqlServerChain.Reachable 2 c5s3 :=
  Relation.ReflTransGen.tail
    (Relation.ReflTransGen.tail
      (Relation.ReflTransGen.tail Relation.ReflTransGen.refl
        (SqlServerChain.Step.submitEmpty (SqlServerChain.initState 2) 0 rfl
          (by decide) rfl))
      (SqlServerChain.Step.submitQueued c5s1 1 rfl (by decide) (by decide)))
    (SqlServerChain.Step.issue c5s2 0 rfl)

/-- Witness for C5 at a concrete reachable three-step trace with one statement on
the wire and a second query waiting. -/
theorem sqlserver_query_chain_fifo_witness :
    c5s3.driverLog = [0] ∧ c5s3.driverLog.Pairwise (· < ·) :=
  ⟨rfl, (sqlserver_query_chain_fifo 2 c5s3 c5Reach).1⟩

/-- Fourth trace state: the statement of task 0 fails, its entries are spliced out
of the chain and its query promise rejects. -/
def c5s4 : SqlServerChain.ChainState :=
  { numTasks := 2, nextSubmit := 2,
    status := SqlServerChain.statusUpd c5s3.status 0 (.completed true),
    chain := [.waiting 1], driverLog := [0] }

/-- Fifth trace state: the await of task 1 over its snapshot rejects with the error
of task 0, so task 1 aborts without preparing its statement. -/
def c5s5 : SqlServerChain.ChainState :=
  { numTasks := 2, nextSubmit := 2,
    status := SqlServerChain.statusUpd c5s4.status 1 .aborted,
    chain := [.waiting 1], driverLog := [0] }

theorem c5AbortReach : SqlServerChain.Reachable 2 c5s5 :=
  Relation.ReflTransGen.tail
    (Relation.ReflTransGen.tail c5Reach
      (SqlServerChain.Step.complete c5s3 0 true rfl))
    (SqlServerChain.Step.abortWake c5s4 1 [.query 0] (.query 0) rfl
      (List.mem_singleton.mpr rfl) rfl)

/-- Counterexample to the original C5: in a reachable two-task trace the statement
of task 0 fails after task 1 has queued behind it; the rejected query promise in
the awaited snapshot makes the await of task 1 throw, task 1 aborts, and neither in
this state nor in any continuation does the statement of task 1 ever reach the
driver: a failure does cancel an already-queued sibling. -/
theorem sqlserver_failure_aborts_queued_sibling :
    SqlServerChain.Reachable 2 c5s5
    ∧ c5s5.status 0 = SqlServerChain.TStatus.completed true
    ∧ c5s5.status 1 = SqlServerChain.TStatus.aborted
    ∧ (1 : Nat) ∉ c5s5.driverLog
    ∧ ∀ s2 : SqlServerChain.ChainState,
        Relation.ReflTransGen SqlServerChain.Step c5s5 s2 → (1 : Nat) ∉ s2.driverLog := by
  refine ⟨c5AbortReach, rfl, rfl, by decide, ?_⟩
  intro s2 h2
  have hab : s2.status 1 = SqlServerChain.TStatus.aborted :=
    SqlServerChain.aborted_persists
      (SqlServerChain.inv_reachable 2 c5s5 c5AbortReach) h2 1 rfl
  intro hmem
  obtain ⟨hA, hB, hC, hD, hE, hF, hG⟩ :=
    SqlServerChain.invS_steps (SqlServerChain.inv_reachable 2 c5s5 c5AbortReach) h2
  have hst := (hG 1).mp hmem
  rcases hst with h1 | ⟨b, h1⟩ <;> rw [hab] at h1 <;> cases h1

end TypeormSpec
